import Mathlib

/-!
# EmberCRM — verification of the Contact Identity & Conversation Orchestration Core

Shallow embedding of the TypeScript sources of EmberCRM:

* `src/lib/ember/memoria/merger.ts` — phone normalization, Levenshtein
  similarity, duplicate detection, contact merging, auto-merge;
* `src/lib/ember/memoria/scoring.ts` — heat scoring;
* `src/lib/ember/agents/manager.ts` — agent selection;
* `src/lib/ember/core/context-builder.ts` — context building and
  the decision engine (`decideActions`);
* the orchestration pipeline (`processMessage`, `getConversationHistory`).

Modelling conventions:

* The relational store is a record of lists (`DB`); a drizzle `findFirst`
  becomes `List.find?`, `findMany` + `where` becomes `List.filter`, an
  `update ... where` becomes a map over the list, an `insert` an append.
  Row ids are plain strings; `defaultRandom()` ids are generated
  deterministically from the list length.
* JS timestamps (`Date`) are modelled as `Int` milliseconds since epoch;
  `new Date()` becomes an explicit `now : Int` parameter.
* Text columns holding JSON are modelled in parsed form (`Option Json`,
  `none` = SQL NULL).  Every write of such a column in the sources is a
  `JSON.stringify` of a structured value, so well-formedness of the stored
  text is an invariant of the store; the unparseable-garbage case is not
  represented.  Shape checks performed by the code (`Array.isArray`,
  `typeof tag === "string"`, …) are modelled faithfully on the parsed value.
* JS strings are Lean `String`s; character-level processing works on
  `String.data`.  `toLowerCase` is modelled by the ASCII `Char.toLower`
  (length-preserving, which JS also is on the ASCII inputs at issue).
* Fallible code returns `Except String`; a thrown error inside a
  transaction surfaces as `.error` and the caller keeps the pre-call `DB`,
  matching rollback semantics.
-/

/-- Minimal JSON value model for the JSON text columns. -/
inductive Json where
  | null : Json
  | bool (b : Bool) : Json
  | num (n : Int) : Json
  | str (s : String) : Json
  | arr (elems : List Json) : Json
  | obj (fields : List (String × Json)) : Json

/-- `hay.includes needle` on character lists (JS `String.prototype.includes`). -/
def listIncludes (hay needle : List Char) : Bool :=
  hay.tails.any (fun t => needle.isPrefixOf t)

/-- JS `a.includes(b)` on strings. -/
def strIncludes (hay needle : String) : Bool :=
  listIncludes hay.data needle.data

/-- JS `toLowerCase`, modelled at ASCII level. -/
def jsToLower (s : String) : String :=
  ⟨s.data.map Char.toLower⟩

/-!
## Similarity Engine (`src/lib/ember/memoria/merger.ts`)
-/

/-- The digit-stripping step of `normalizePhoneNumber`:
`phone.replace(/\D/g, "")`. -/
def keepDigits (l : List Char) : List Char :=
  l.filter Char.isDigit

/-- First country-code `if` of `normalizePhoneNumber`:
`if (normalized.startsWith("1") && normalized.length === 11)` drop the
leading US code. -/
def stripUS (l : List Char) : List Char :=
  if l.length = 11 ∧ l.take 1 = ['1'] then l.drop 1 else l

/-- Second country-code `if` of `normalizePhoneNumber`:
`if (normalized.startsWith("52") && normalized.length === 12)` drop the
leading Mexico code. -/
def stripMX (l : List Char) : List Char :=
  if l.length = 12 ∧ l.take 2 = ['5', '2'] then l.drop 2 else l

/-- `normalizePhoneNumber(phone)` from `merger.ts`: remove all non-digit
characters, then remove a recognized country-code prefix (the two `if`s
run in sequence as in the source). -/
def normalizePhoneNumber (phone : String) : String :=
  ⟨stripMX (stripUS (keepDigits phone.data))⟩

theorem keepDigits_all_digits (l : List Char) : ∀ c ∈ keepDigits l, c.isDigit := by
  intro c hc
  exact (List.mem_filter.mp hc).2

theorem keepDigits_of_all_digits {l : List Char} (h : ∀ c ∈ l, c.isDigit) :
    keepDigits l = l :=
  List.filter_eq_self.mpr h

theorem stripUS_sublist (l : List Char) : (stripUS l).Sublist l := by
  unfold stripUS
  split
  · exact List.drop_sublist 1 l
  · exact List.Sublist.refl l

theorem stripMX_sublist (l : List Char) : (stripMX l).Sublist l := by
  unfold stripMX
  split
  · exact List.drop_sublist 2 l
  · exact List.Sublist.refl l

theorem stripUS_ne_11 {l : List Char} (h : l.length ≠ 11) : stripUS l = l := by
  unfold stripUS
  exact if_neg (fun hc => h hc.1)

theorem stripMX_ne_12 {l : List Char} (h : l.length ≠ 12) : stripMX l = l := by
  unfold stripMX
  exact if_neg (fun hc => h hc.1)

/-- The country-code stripping pass is a no-op on its own output: it
either leaves the digit string alone or produces a 10-digit string, which
neither `if` touches. -/
theorem stripCC_idem (l : List Char) :
    stripMX (stripUS (stripMX (stripUS l))) = stripMX (stripUS l) := by
  by_cases h1 : l.length = 11 ∧ l.take 1 = ['1']
  · have e1 : stripUS l = l.drop 1 := if_pos h1
    have hlen : (l.drop 1).length = 10 := by
      rw [List.length_drop, h1.1]
    have e2 : stripMX (l.drop 1) = l.drop 1 := stripMX_ne_12 (by rw [hlen]; decide)
    rw [e1, e2, stripUS_ne_11 (by rw [hlen]; decide), e2]
  · have e1 : stripUS l = l := if_neg h1
    rw [e1]
    by_cases h2 : l.length = 12 ∧ l.take 2 = ['5', '2']
    · have e2 : stripMX l = l.drop 2 := if_pos h2
      have hlen : (l.drop 2).length = 10 := by
        rw [List.length_drop, h2.1]
      rw [e2, stripUS_ne_11 (by rw [hlen]; decide), stripMX_ne_12 (by rw [hlen]; decide)]
    · have e2 : stripMX l = l := if_neg h2
      rw [e2, e1, e2]

/-- C6: `normalizePhoneNumber` is idempotent: for every input string `x`,
`normalizePhoneNumber (normalizePhoneNumber x) = normalizePhoneNumber x`. -/
theorem normalizePhoneNumber_idempotent (x : String) :
    normalizePhoneNumber (normalizePhoneNumber x) = normalizePhoneNumber x := by
  unfold normalizePhoneNumber
  refine congrArg String.mk ?_
  have hdig : ∀ c ∈ stripMX (stripUS (keepDigits x.data)), c.isDigit := by
    intro c hc
    exact keepDigits_all_digits x.data c
      (((stripMX_sublist _).trans (stripUS_sublist _)).subset hc)
  rw [show (String.mk (stripMX (stripUS (keepDigits x.data)))).data
        = stripMX (stripUS (keepDigits x.data)) from rfl,
      keepDigits_of_all_digits hdig, stripCC_idem]

/-- JS truthiness of a nullable string column: `null`/`undefined` and the
empty string are falsy. -/
def truthy : Option String → Bool
  | none => false
  | some s => s ≠ ""

/-- `levenshteinDistance(str1, str2)` from `merger.ts`.  The source fills
the standard DP table (insertion/deletion/substitution cost 1); we embed
the equivalent structural recurrence the table implements. -/
def levenshteinDistance : List Char → List Char → Nat
  | [], l2 => l2.length
  | l1, [] => l1.length
  | c1 :: t1, c2 :: t2 =>
    min (levenshteinDistance t1 (c2 :: t2) + 1)
      (min (levenshteinDistance (c1 :: t1) t2 + 1)
        (levenshteinDistance t1 t2 + (if c1 = c2 then 0 else 1)))
termination_by l1 l2 => l1.length + l2.length
decreasing_by all_goals simp_arith

/-- `calculateSimilarity(str1, str2)` from `merger.ts`:
`1 - levenshtein(lower str1, lower str2) / max(len str1, len str2)`,
and `1` when both strings are empty. -/
def calculateSimilarity (str1 str2 : String) : ℚ :=
  if max str1.length str2.length = 0 then 1
  else 1 - (levenshteinDistance (jsToLower str1).data (jsToLower str2).data : ℚ)
    / ((max str1.length str2.length : ℕ) : ℚ)

theorem calculateSimilarity_le_one (str1 str2 : String) :
    calculateSimilarity str1 str2 ≤ 1 := by
  unfold calculateSimilarity
  split
  · exact le_refl 1
  · have h : (0 : ℚ) ≤ (levenshteinDistance (jsToLower str1).data (jsToLower str2).data : ℚ)
        / ((max str1.length str2.length : ℕ) : ℚ) :=
      div_nonneg (by positivity) (by positivity)
    linarith

/-!
## A model of JS `Array.prototype.sort` with a numeric comparator

The sources sort with comparators of the form `(a, b) => key(b) - key(a)`
(descending by key).  `Array.prototype.sort` is stable (ES2019), so the
result is the stable descending reordering: we model it as a stable
insertion sort where `ge a b` stands for "the comparator does not put `b`
strictly before `a`" (`key a ≥ key b`).
-/

def insertStable {α : Type} (ge : α → α → Bool) (a : α) : List α → List α
  | [] => [a]
  | b :: bs => if ge a b then a :: b :: bs else b :: insertStable ge a bs

def jsSortStable {α : Type} (ge : α → α → Bool) (l : List α) : List α :=
  l.foldr (insertStable ge) []

theorem mem_insertStable {α : Type} (ge : α → α → Bool) (a : α) (l : List α)
    (x : α) : x ∈ insertStable ge a l ↔ x = a ∨ x ∈ l := by
  induction l with
  | nil => simp [insertStable]
  | cons b bs ih =>
    unfold insertStable
    split
    · simp
    · simp only [List.mem_cons, ih]
      tauto

theorem mem_jsSortStable {α : Type} (ge : α → α → Bool) (l : List α) (x : α) :
    x ∈ jsSortStable ge l ↔ x ∈ l := by
  induction l with
  | nil => simp [jsSortStable]
  | cons b bs ih =>
    unfold jsSortStable at ih ⊢
    simp only [List.foldr_cons, mem_insertStable, ih, List.mem_cons]

theorem pairwise_insertStable {α : Type} (ge : α → α → Bool)
    (htot : ∀ a b, ge a b = true ∨ ge b a = true)
    (htrans : ∀ a b c, ge a b = true → ge b c = true → ge a c = true)
    (a : α) (l : List α) (h : l.Pairwise (fun x y => ge x y = true)) :
    (insertStable ge a l).Pairwise (fun x y => ge x y = true) := by
  induction l with
  | nil => simp [insertStable]
  | cons b bs ih =>
    rcases List.pairwise_cons.mp h with ⟨hb, hbs⟩
    simp only [insertStable]
    by_cases hab : ge a b = true
    · rw [if_pos hab]
      refine List.pairwise_cons.mpr ⟨?_, h⟩
      intro x hx
      rcases List.mem_cons.mp hx with hx | hx
      · rw [hx]
        exact hab
      · exact htrans a b x hab (hb x hx)
    · rw [if_neg hab]
      refine List.pairwise_cons.mpr ⟨?_, ih hbs⟩
      intro x hx
      rcases (mem_insertStable ge a bs x).mp hx with hx | hx
      · rw [hx]
        rcases htot a b with h' | h'
        · exact absurd h' hab
        · exact h'
      · exact hb x hx

theorem pairwise_jsSortStable {α : Type} (ge : α → α → Bool)
    (htot : ∀ a b, ge a b = true ∨ ge b a = true)
    (htrans : ∀ a b c, ge a b = true → ge b c = true → ge a c = true)
    (l : List α) :
    (jsSortStable ge l).Pairwise (fun x y => ge x y = true) := by
  induction l with
  | nil => simp [jsSortStable]
  | cons b bs ih =>
    exact pairwise_insertStable ge htot htrans b _ ih

/-!
## Data model (`src/lib/db/schema/tables.ts`)

Enum text columns (`status`, `channel`, `role`, …) are modelled as plain
strings carrying the enum's string values (`ContactStatus.active =
"active"`, …), matching how the TypeScript code compares them.
-/

/-- The `contact` table row. -/
structure Contact where
  id : String
  organizationId : String
  firstName : String
  lastName : String
  email : Option String := none
  phone : Option String := none
  company : Option String := none
  heatScore : Int := 0
  tags : Option Json := none
  channelPreference : Option String := none
  timezone : Option String := none
  language : Option String := some "es"
  lastInteractionAt : Option Int := none
  lastInteractionChannel : Option String := none
  interactionCount : Int := 0
  lifetimeValue : Option Int := some 0
  averageResponseTime : Option Int := none
  assignedToId : Option String := none
  customFields : Option Json := none
  status : String := "active"
  mergedWithId : Option String := none
  mergedContactIds : Option Json := none
  createdAt : Int := 0
  updatedAt : Int := 0

/-- `DuplicateCandidate` from `merger.ts`. -/
structure DuplicateCandidate where
  id : String
  confidence : ℚ
  matchReason : String
  contact : Contact

/-- The recurring drizzle filter
`organizationId = org AND status = 'active'` over the contact table. -/
def activeOrgContacts (contacts : List Contact) (organizationId : String) :
    List Contact :=
  contacts.filter (fun c => c.organizationId == organizationId && c.status == "active")

/-- The duplicate-detection probe: the four fields of the `contact`
argument of `detectDuplicateContacts`. -/
structure DupProbe where
  email : Option String := none
  phone : Option String := none
  firstName : Option String := none
  lastName : Option String := none

/-- `contact.email.split("@")[0]`: the text before the first `@`
(the whole string when there is no `@`). -/
def emailLocalPart (s : String) : String :=
  ⟨s.data.takeWhile (fun c => c ≠ '@')⟩

/-- JS `s.slice(-4)`: the last four characters (the whole string when
shorter). -/
def sliceLast4 (s : String) : String :=
  ⟨s.data.drop (s.data.length - 4)⟩

/-- JS `Math.round` on a rational (half rounds up, toward `+∞`). -/
def jsRound (q : ℚ) : Int :=
  Int.floor (q + 1 / 2)

/-- The body of the exact-email pass of `detectDuplicateContacts`. -/
def emailPass (contacts : List Contact) (organizationId : String)
    (probe : DupProbe) : List DuplicateCandidate :=
  match probe.email with
  | none => []
  | some e =>
    if e = "" then []
    else
      ((activeOrgContacts contacts organizationId).filter
          (fun c => c.email == some e)).map
        (fun m =>
          { id := m.id, confidence := 1, matchReason := "Exact email match",
            contact := m })

/-- One loop iteration of the exact-phone pass: push the candidate when
the row has a truthy phone, the normalized phones agree and the id was
not already added. -/
def phonePassStep (normalizedPhone : String) (acc : List DuplicateCandidate)
    (m : Contact) : List DuplicateCandidate :=
  match m.phone with
  | none => acc
  | some mp =>
    if mp = "" then acc
    else if normalizePhoneNumber mp = normalizedPhone then
      if acc.any (fun c => c.id == m.id) then acc
      else
        acc ++ [{ id := m.id, confidence := mkRat 95 100,
                  matchReason := "Exact phone match (normalized)", contact := m }]
    else acc

/-- The exact-phone pass of `detectDuplicateContacts`, accumulating onto
the candidates found so far. -/
def phonePass (contacts : List Contact) (organizationId : String)
    (probe : DupProbe) (acc : List DuplicateCandidate) :
    List DuplicateCandidate :=
  match probe.phone with
  | none => acc
  | some p =>
    if p = "" then acc
    else
      (activeOrgContacts contacts organizationId).foldl
        (phonePassStep (normalizePhoneNumber p)) acc

/-- The average of first-name and last-name similarity computed by the
fuzzy-name pass (`(firstNameSimilarity + lastNameSimilarity) / 2`). -/
def fuzzyAvgSimilarity (probe : DupProbe) (m : Contact) : ℚ :=
  (calculateSimilarity (probe.firstName.getD "") m.firstName
    + calculateSimilarity (probe.lastName.getD "") m.lastName) / 2

/-- The email-local-part confidence boost of the fuzzy-name pass:
`+0.15`, capped at `0.95`, when both emails are truthy and the text
before `@` agrees. -/
def fuzzyBoost1 (probe : DupProbe) (m : Contact) (conf : ℚ) : ℚ :=
  if truthy probe.email && truthy m.email
      && (emailLocalPart (probe.email.getD "") == emailLocalPart (m.email.getD ""))
  then min (conf + mkRat 15 100) (mkRat 95 100) else conf

/-- The last-4-digits confidence boost of the fuzzy-name pass: `+0.1`,
capped at `0.95`, when both phones are truthy, the last four normalized
digits agree, and the probe's normalized phone has at least 4 digits. -/
def fuzzyBoost2 (probe : DupProbe) (m : Contact) (conf : ℚ) : ℚ :=
  if truthy probe.phone && truthy m.phone
      && (sliceLast4 (normalizePhoneNumber (probe.phone.getD ""))
            == sliceLast4 (normalizePhoneNumber (m.phone.getD "")))
      && decide ((normalizePhoneNumber (probe.phone.getD "")).length ≥ 4)
  then min (conf + mkRat 1 10) (mkRat 95 100) else conf

/-- The confidence assigned by the fuzzy-name pass: base
`avgSimilarity * 0.7` plus the two boosts. -/
def fuzzyConfidence (probe : DupProbe) (m : Contact) (avgSimilarity : ℚ) : ℚ :=
  fuzzyBoost2 probe m (fuzzyBoost1 probe m (avgSimilarity * mkRat 7 10))

/-- One loop iteration of the fuzzy-name pass of
`detectDuplicateContacts`: skip ids already matched, require the average
first/last-name similarity to reach the threshold, then push the boosted
candidate. -/
def fuzzyPassStep (probe : DupProbe) (threshold : ℚ)
    (acc : List DuplicateCandidate) (m : Contact) : List DuplicateCandidate :=
  if acc.any (fun c => c.id == m.id) then acc
  else if fuzzyAvgSimilarity probe m ≥ threshold then
    acc ++ [{ id := m.id,
              confidence := fuzzyConfidence probe m (fuzzyAvgSimilarity probe m),
              matchReason := "Fuzzy name match ("
                ++ toString (jsRound (fuzzyAvgSimilarity probe m * 100)) ++ "% similar)",
              contact := m }]
  else acc

/-- The fuzzy-name pass of `detectDuplicateContacts`. -/
def fuzzyPass (contacts : List Contact) (organizationId : String)
    (probe : DupProbe) (threshold : ℚ) (acc : List DuplicateCandidate) :
    List DuplicateCandidate :=
  if truthy probe.firstName && truthy probe.lastName then
    (activeOrgContacts contacts organizationId).foldl
      (fuzzyPassStep probe threshold) acc
  else acc

/-- `detectDuplicateContacts(organizationId, contact, threshold)` from
`merger.ts`: the three passes in sequence, then a stable sort by
descending confidence. -/
def detectDuplicateContacts (contacts : List Contact) (organizationId : String)
    (probe : DupProbe) (threshold : ℚ := mkRat 7 10) : List DuplicateCandidate :=
  jsSortStable (fun a b => decide (b.confidence ≤ a.confidence))
    (fuzzyPass contacts organizationId probe threshold
      (phonePass contacts organizationId probe
        (emailPass contacts organizationId probe)))

/-- Confidence discipline of a duplicate candidate: never above `1`, and
above `0.95` only for exact email matches. -/
def candOK (c : DuplicateCandidate) : Prop :=
  c.confidence ≤ 1 ∧ (c.matchReason ≠ "Exact email match" → c.confidence ≤ 95 / 100)

theorem foldl_push_invariant {α γ : Type} (P : γ → Prop) (f : List γ → α → List γ)
    (hf : ∀ acc a x, (∀ y ∈ acc, P y) → x ∈ f acc a → P x) :
    ∀ (l : List α) (acc : List γ), (∀ y ∈ acc, P y) → ∀ x ∈ l.foldl f acc, P x := by
  intro l
  induction l with
  | nil =>
    intro acc h x hx
    exact h x (by simpa using hx)
  | cons a as ih =>
    intro acc h x hx
    exact ih (f acc a) (fun y hy => hf acc a y h hy) x (by simpa using hx)

theorem emailPass_candOK (contacts : List Contact) (org : String)
    (probe : DupProbe) : ∀ x ∈ emailPass contacts org probe, candOK x := by
  intro x hx
  unfold emailPass at hx
  split at hx
  · exact absurd hx (List.not_mem_nil x)
  · split at hx
    · exact absurd hx (List.not_mem_nil x)
    · rcases List.mem_map.mp hx with ⟨m, _, rfl⟩
      exact ⟨le_refl 1, fun hne => absurd rfl hne⟩

theorem phonePassStep_candOK (np : String) (acc : List DuplicateCandidate)
    (m : Contact) (h : ∀ y ∈ acc, candOK y) :
    ∀ x ∈ phonePassStep np acc m, candOK x := by
  intro x hx
  unfold phonePassStep at hx
  split at hx
  · exact h x hx
  · split at hx
    · exact h x hx
    · split at hx
      · split at hx
        · exact h x hx
        · rcases List.mem_append.mp hx with hx | hx
          · exact h x hx
          · rcases List.mem_singleton.mp hx with rfl
            refine ⟨by norm_num [Rat.mkRat_eq_div], fun _ => ?_⟩
            show (mkRat 95 100 : ℚ) ≤ 95 / 100
            norm_num [Rat.mkRat_eq_div]
      · exact h x hx

theorem fuzzyBoost1_le (probe : DupProbe) (m : Contact) (conf : ℚ)
    (h : conf ≤ mkRat 95 100) : fuzzyBoost1 probe m conf ≤ mkRat 95 100 := by
  unfold fuzzyBoost1
  split
  · exact min_le_right _ _
  · exact h

theorem fuzzyBoost2_le (probe : DupProbe) (m : Contact) (conf : ℚ)
    (h : conf ≤ mkRat 95 100) : fuzzyBoost2 probe m conf ≤ mkRat 95 100 := by
  unfold fuzzyBoost2
  split
  · exact min_le_right _ _
  · exact h

theorem fuzzyAvgSimilarity_le_one (probe : DupProbe) (m : Contact) :
    fuzzyAvgSimilarity probe m ≤ 1 := by
  unfold fuzzyAvgSimilarity
  have h1 := calculateSimilarity_le_one (probe.firstName.getD "") m.firstName
  have h2 := calculateSimilarity_le_one (probe.lastName.getD "") m.lastName
  linarith

theorem fuzzyConfidence_le (probe : DupProbe) (m : Contact) (avg : ℚ)
    (h : avg ≤ 1) : fuzzyConfidence probe m avg ≤ 95 / 100 := by
  unfold fuzzyConfidence
  rw [show (95 / 100 : ℚ) = mkRat 95 100 from (Rat.mkRat_eq_div 95 100).symm]
  refine fuzzyBoost2_le _ _ _ (fuzzyBoost1_le _ _ _ ?_)
  rw [Rat.mkRat_eq_div]
  push_cast
  nlinarith

theorem fuzzyPassStep_candOK (probe : DupProbe) (threshold : ℚ)
    (acc : List DuplicateCandidate) (m : Contact) (h : ∀ y ∈ acc, candOK y) :
    ∀ x ∈ fuzzyPassStep probe threshold acc m, candOK x := by
  intro x hx
  unfold fuzzyPassStep at hx
  split at hx
  · exact h x hx
  · split at hx
    · rcases List.mem_append.mp hx with hx | hx
      · exact h x hx
      · rcases List.mem_singleton.mp hx with rfl
        have hc : fuzzyConfidence probe m (fuzzyAvgSimilarity probe m) ≤ 95 / 100 :=
          fuzzyConfidence_le _ _ _ (fuzzyAvgSimilarity_le_one probe m)
        exact ⟨hc.trans (by norm_num), fun _ => hc⟩
    · exact h x hx

theorem phonePass_candOK (contacts : List Contact) (org : String)
    (probe : DupProbe) (acc : List DuplicateCandidate)
    (h : ∀ y ∈ acc, candOK y) : ∀ x ∈ phonePass contacts org probe acc, candOK x := by
  intro x hx
  unfold phonePass at hx
  split at hx
  · exact h x hx
  · split at hx
    · exact h x hx
    · exact foldl_push_invariant candOK _
        (fun acc' a y hy hmem => phonePassStep_candOK _ acc' a hy y hmem)
        _ acc h x hx

theorem fuzzyPass_candOK (contacts : List Contact) (org : String)
    (probe : DupProbe) (threshold : ℚ) (acc : List DuplicateCandidate)
    (h : ∀ y ∈ acc, candOK y) :
    ∀ x ∈ fuzzyPass contacts org probe threshold acc, candOK x := by
  intro x hx
  unfold fuzzyPass at hx
  split at hx
  · exact foldl_push_invariant candOK _
      (fun acc' a y hy hmem => fuzzyPassStep_candOK probe threshold acc' a hy y hmem)
      _ acc h x hx
  · exact h x hx

/-- C10: every candidate returned by `detectDuplicateContacts` has
confidence at most `1.0`; every candidate not produced by the exact-email
pass (phone pass `0.95`, fuzzy pass base `avgSimilarity * 0.7` with each
boost capped at `0.95`) has confidence at most `0.95`; consequently a
candidate with confidence exactly `1.0` can only arise from the
exact-email pass. -/
theorem detectDuplicateContacts_confidence_bounds
    (contacts : List Contact) (organizationId : String) (probe : DupProbe)
    (threshold : ℚ) (cand : DuplicateCandidate)
    (hmem : cand ∈ detectDuplicateContacts contacts organizationId probe threshold) :
    cand.confidence ≤ 1 ∧
      (cand.matchReason ≠ "Exact email match" → cand.confidence ≤ 95 / 100) ∧
      (cand.confidence = 1 → cand.matchReason = "Exact email match") := by
  have hmem' := (mem_jsSortStable _ _ _).mp hmem
  have hOK : candOK cand :=
    fuzzyPass_candOK contacts organizationId probe threshold _
      (phonePass_candOK contacts organizationId probe _
        (emailPass_candOK contacts organizationId probe))
      cand hmem'
  refine ⟨hOK.1, hOK.2, fun h1 => ?_⟩
  by_contra hne
  have hle := hOK.2 hne
  rw [h1] at hle
  norm_num at hle

/-- The contact used to witness C10. -/
def contactW : Contact :=
  { id := "c1", organizationId := "o", firstName := "Ana", lastName := "P",
    email := some "a@x.com" }

/-- The candidate the exact-email pass produces for `contactW`. -/
def candW : DuplicateCandidate :=
  { id := "c1", confidence := 1, matchReason := "Exact email match",
    contact := contactW }

/-- Witness for C10 at a concrete one-contact organization. -/
theorem detectDuplicateContacts_confidence_bounds_witness :
    candW.confidence ≤ 1 ∧
      (candW.matchReason ≠ "Exact email match" → candW.confidence ≤ 95 / 100) ∧
      (candW.confidence = 1 → candW.matchReason = "Exact email match") :=
  detectDuplicateContacts_confidence_bounds [contactW] "o"
    { email := some "a@x.com" } (7 / 10) candW (by
      have h : detectDuplicateContacts [contactW] "o"
          { email := some "a@x.com" } (7 / 10) = [candW] := rfl
      rw [h]
      exact List.mem_singleton_self _)

/-!
## Heat Scorer (`src/lib/ember/memoria/scoring.ts`)
-/

/-- Recency component of `calculateHeatScore` (0–30 points).
`daysSinceLastInteraction = Math.floor((now - last) / 86400000)`. -/
def recencyScore (now : Int) (lastInteractionAt : Option Int) : Int :=
  match lastInteractionAt with
  | none => 0
  | some t =>
    let days := Int.fdiv (now - t) 86400000
    if days = 0 then 30
    else if days ≤ 1 then 28
    else if days ≤ 3 then 25
    else if days ≤ 7 then 20
    else if days ≤ 14 then 15
    else if days ≤ 30 then 10
    else if days ≤ 60 then 5
    else 0

/-- Frequency component of `calculateHeatScore` (0–30 points). -/
def frequencyScore (interactionCount : Int) : Int :=
  if interactionCount ≥ 16 then 30
  else if interactionCount ≥ 6 then 20
  else if interactionCount ≥ 1 then 10
  else 0

/-- Value component of `calculateHeatScore` (0–20 points);
`contact.lifetimeValue || 0` reads the nullable column. -/
def valueScore (lifetimeValue : Option Int) : Int :=
  if lifetimeValue.getD 0 ≥ 100000 then 20
  else if lifetimeValue.getD 0 ≥ 50000 then 15
  else if lifetimeValue.getD 0 ≥ 10000 then 10
  else if lifetimeValue.getD 0 ≥ 1000 then 5
  else 0

/-- Engagement component of `calculateHeatScore` (0–20 points).
`contact.averageResponseTime || null` turns a stored `0` into `null`
(JS falsiness), so a zero average contributes nothing. -/
def engagementScore (averageResponseTime : Option Int) : Int :=
  match averageResponseTime with
  | none => 0
  | some a =>
    if a = 0 then 0
    else if a < 300 then 20
    else if a < 1800 then 15
    else if a < 7200 then 10
    else if a < 86400 then 5
    else 0

/-- The score `calculateHeatScore` computes for a loaded contact row:
the four components summed, then
`Math.min(Math.max(Math.round(score), 0), 100)` (`Math.round` is the
identity on the integer sum). -/
def calculateHeatScoreOf (now : Int) (c : Contact) : Int :=
  min (max (recencyScore now c.lastInteractionAt + frequencyScore c.interactionCount
        + valueScore c.lifetimeValue + engagementScore c.averageResponseTime) 0) 100

/-- `calculateHeatScore(contactId)` from `scoring.ts`: load the contact
(`throw` when absent) and compute its score. -/
def calculateHeatScore (contacts : List Contact) (now : Int) (contactId : String) :
    Except String Int :=
  match contacts.find? (fun c => c.id == contactId) with
  | none => .error "Contact not found"
  | some contact => .ok (calculateHeatScoreOf now contact)

/-- C5: for every contact record `calculateHeatScore` returns an integer
in `[0, 100]`; and for a contact with no `lastInteractionAt`,
`interactionCount` 0, `lifetimeValue` 0 and no `averageResponseTime`, it
returns exactly `0`. -/
theorem calculateHeatScore_range_and_zero :
    (∀ (contacts : List Contact) (now : Int) (contactId : String) (r : Int),
      calculateHeatScore contacts now contactId = .ok r → 0 ≤ r ∧ r ≤ 100) ∧
    (∀ (contacts : List Contact) (now : Int) (contactId : String) (c : Contact),
      contacts.find? (fun c => c.id == contactId) = some c →
      c.lastInteractionAt = none → c.interactionCount = 0 →
      c.lifetimeValue = some 0 → c.averageResponseTime = none →
      calculateHeatScore contacts now contactId = .ok 0) := by
  constructor
  · intro contacts now contactId r h
    unfold calculateHeatScore at h
    rcases hfind : contacts.find? (fun c => c.id == contactId) with _ | c
    · rw [hfind] at h
      exact absurd h (by simp)
    · rw [hfind] at h
      have hr : r = calculateHeatScoreOf now c := by
        cases h
        rfl
      subst hr
      unfold calculateHeatScoreOf
      exact ⟨le_min (le_max_right _ _) (by norm_num), min_le_right _ _⟩
  · intro contacts now contactId c hfind h1 h2 h3 h4
    unfold calculateHeatScore
    rw [hfind]
    show Except.ok (calculateHeatScoreOf now c) = Except.ok 0
    unfold calculateHeatScoreOf
    rw [h1, h2, h3, h4]
    rfl

/-- A contact with no interactions, zero value and no response-time data. -/
def contactZ : Contact :=
  { id := "z", organizationId := "o", firstName := "Zoe", lastName := "Q" }

/-- Witness for C5: the zero contact scores exactly 0, and 0 is in range. -/
theorem calculateHeatScore_range_and_zero_witness :
    calculateHeatScore [contactZ] 5 "z" = .ok 0 ∧ (0 ≤ (0 : Int) ∧ (0 : Int) ≤ 100) :=
  have H := calculateHeatScore_range_and_zero.2 [contactZ] 5 "z" contactZ rfl rfl rfl rfl rfl
  ⟨H, calculateHeatScore_range_and_zero.1 [contactZ] 5 "z" 0 H⟩

/-!
## Remaining tables

Payload columns never read by the embedded code (media attachments,
delivery status, UTM tracking, voice-call provider details, …) are
elided; every column the embedded functions read or write is present.
-/

/-- A quote line item (`extractQuoteItems` return shape). -/
structure QuoteItem where
  description : String
  quantity : Int
  price : ℚ
deriving DecidableEq

/-- The `params` record of an `Action` (`decision-maker.ts`).  The JS
value is a plain object; each key any handler ever sets is an optional
field here. -/
structure ActionParams where
  conversationId : Option String := none
  contactId : Option String := none
  url : Option String := none
  title : Option String := none
  documentType : Option String := none
  items : Option (List QuoteItem) := none
  proposedTimes : Option (List String) := none
  reason : Option String := none
  priority : Option String := none
  content : Option String := none
  isImportant : Option Bool := none
  tags : Option (List String) := none
  query : Option String := none
deriving DecidableEq

/-- `Action` from `decision-maker.ts` (named `EmberAction` here because
Mathlib already declares an `Action`). -/
structure EmberAction where
  type : String
  params : ActionParams
  priority : Int
deriving DecidableEq

/-- The `conversation` table row. -/
structure Conversation where
  id : String
  organizationId : String
  contactId : String
  status : String := "active"
  channel : String
  handledByAi : Bool := true
  transferredToHuman : Bool := false
  messageCount : Int := 0
  lastMessageAt : Option Int := none
  summary : Option String := none
  sentiment : Option String := none
  createdAt : Int := 0
  updatedAt : Int := 0

/-- The `conversation_message` table row (`actionTriggered` stores the
serialized action list; modelled parsed). -/
structure ConversationMessage where
  id : String
  conversationId : String
  direction : String
  role : String
  content : String
  contentType : String := "text"
  channel : String
  generatedByAi : Bool := false
  model : Option String := none
  creditsUsed : Option Int := none
  actionTriggered : Option (List EmberAction) := none
  createdAt : Int := 0

/-- The `contact_agreement` table row. -/
structure ContactAgreement where
  id : String
  organizationId : String
  contactId : String
  type : String
  description : String
  details : Option Json := none
  status : String := "active"
  createdAt : Int := 0

/-- The `contact_note` table row. -/
structure ContactNote where
  id : String
  organizationId : String
  contactId : String
  content : String
  createdById : Option String := none
  createdAt : Int := 0

/-- The `contact_source` table row. -/
structure ContactSource where
  id : String
  contactId : String
  sourceType : String
  sourceIdentifier : Option String := none
  sourceMetadata : Option Json := none
  firstSeen : Int := 0
  lastSeen : Int := 0
  interactionCount : Int := 0

/-- The `agent_assignment` table row. -/
structure AgentAssignment where
  id : String
  conversationId : String
  agentId : String
  contactId : String
  assignedAt : Int := 0
  unassignedAt : Option Int := none
  reasonForUnassignment : Option String := none
  messagesHandled : Int := 0
  creditsUsed : Int := 0
  satisfaction : Option Int := none
  createdAt : Int := 0

/-- The `form_submission` table row. -/
structure FormSubmission where
  id : String
  formId : String
  contactId : String
  submittedAt : Int := 0

/-- The `voice_call` table row. -/
structure VoiceCall where
  id : String
  organizationId : String
  conversationId : Option String := none
  contactId : String
  agentId : Option String := none
  direction : String := "outbound"
  fromNumber : String := ""
  toNumber : String := ""
  provider : String := ""
  startedAt : Int := 0
  status : String := "queued"

/-- The `agent` table row. -/
structure Agent where
  id : String
  organizationId : String
  name : String
  description : Option String := none
  type : String
  voiceProvider : String := "none"
  voiceProviderId : Option String := none
  systemPrompt : String := ""
  temperature : Option Int := some 70
  maxTokens : Option Int := some 2000
  model : String := "gpt-4"
  objectives : Option Json := none
  escalationRules : Option Json := none
  allowedActions : Option Json := none
  knowledgeBase : Option Json := none
  assignToChannels : Option Json := none
  assignToCampaigns : Option Json := none
  active : Bool := true
  createdAt : Int := 0
  updatedAt : Int := 0

/-- The relational store. -/
structure DB where
  contacts : List Contact := []
  conversations : List Conversation := []
  messages : List ConversationMessage := []
  agreements : List ContactAgreement := []
  notes : List ContactNote := []
  sources : List ContactSource := []
  assignments : List AgentAssignment := []
  formSubmissions : List FormSubmission := []
  voiceCalls : List VoiceCall := []
  agents : List Agent := []

/-!
## Identity Resolver: merging (`src/lib/ember/memoria/merger.ts`)
-/

/-- JS-Set insertion order: add a tag if not already present. -/
def addTag (acc : List String) (t : String) : List String :=
  if acc.contains t then acc else acc ++ [t]

/-- One column of `mergeTags`: skip falsy/non-array values, add each
string element as `tag.trim().toLowerCase()`. -/
def mergeTagsStep (acc : List String) (col : Option Json) : List String :=
  match col with
  | some (.arr l) =>
    l.foldl
      (fun acc j =>
        match j with
        | .str s => addTag acc (jsToLower s.trim)
        | _ => acc)
      acc
  | _ => acc

/-- `mergeTags(...tagArrays)` from `merger.ts`. -/
def mergeTags (cols : List (Option Json)) : List String :=
  cols.foldl mergeTagsStep []

/-- `Object.assign` of a single key: overwrite in place, else append. -/
def objAssignOne (acc : List (String × Json)) (kv : String × Json) :
    List (String × Json) :=
  if acc.any (fun p => p.1 == kv.1) then
    acc.map (fun p => if p.1 == kv.1 then (p.1, kv.2) else p)
  else acc ++ [kv]

/-- One column of `mergeCustomFields`: `Object.assign(merged, parsed)`
when the parsed value is a non-null object (JS arrays count, with their
indices as keys). -/
def mergeCustomFieldsStep (acc : List (String × Json)) (col : Option Json) :
    List (String × Json) :=
  match col with
  | some (.obj fs) => fs.foldl objAssignOne acc
  | some (.arr l) =>
    (l.enum.map (fun p => (toString p.1, p.2))).foldl objAssignOne acc
  | _ => acc

/-- `mergeCustomFields(...fieldObjects)` from `merger.ts`. -/
def mergeCustomFields (cols : List (Option Json)) : List (String × Json) :=
  cols.foldl mergeCustomFieldsStep []

/-- JS array spread `[...v]` of a parsed JSON value (arrays spread to
their elements, strings to their characters, anything else throws). -/
def spreadJson : Json → Except String (List Json)
  | .arr l => .ok l
  | .str s => .ok (s.data.map (fun c => .str (String.mk [c])))
  | _ => .error "value is not iterable"

/-- `a || b || ... || null` over nullable string columns: the first
truthy value, else `null`.  Used for the first-non-null field precedence
of `mergeContacts` (`primary.phone || duplicates.find(d => d.phone)?.phone
|| null`, …). -/
def firstTruthy (opts : List (Option String)) : Option String :=
  (opts.find? truthy).getD none

/-- The merged column values `mergeContacts` writes onto every row whose
id is the primary id (step 2 + step 3 of the source). -/
def applyMergedFields (now : Int) (primary : Contact) (duplicates : List Contact)
    (duplicateIds : List String) (prevMergedIds : List Json) (c : Contact) : Contact :=
  { c with
    phone := firstTruthy (primary.phone :: duplicates.map (·.phone))
    email := firstTruthy (primary.email :: duplicates.map (·.email))
    company := firstTruthy (primary.company :: duplicates.map (·.company))
    timezone := firstTruthy (primary.timezone :: duplicates.map (·.timezone))
    channelPreference :=
      firstTruthy (primary.channelPreference :: duplicates.map (·.channelPreference))
    tags := some (.arr ((mergeTags (primary.tags :: duplicates.map (·.tags))).map .str))
    customFields := some (.obj (mergeCustomFields
      (primary.customFields :: duplicates.map (·.customFields))))
    lifetimeValue := some (primary.lifetimeValue.getD 0
      + (duplicates.map (fun d => d.lifetimeValue.getD 0)).sum)
    interactionCount := primary.interactionCount
      + (duplicates.map (·.interactionCount)).sum
    mergedContactIds := some (.arr (prevMergedIds ++ duplicateIds.map .str))
    updatedAt := now }

/-- Step 5 of `mergeContacts`: mark a row `status = "merged"` with
`mergedWithId = primaryId` when its id is one of the duplicate ids. -/
def markMerged (now : Int) (primaryId : String) (duplicateIds : List String)
    (c : Contact) : Contact :=
  if duplicateIds.contains c.id then
    { c with status := "merged", mergedWithId := some primaryId, updatedAt := now }
  else c

/-- The contact list after step 3 (merged fields written onto the rows
matching the primary id) and step 5 (duplicates marked merged) of the
`mergeContacts` transaction. -/
def mergedContactsList (db : DB) (now : Int) (primaryId : String)
    (duplicateIds : List String) (primary : Contact) (duplicates : List Contact)
    (prevMergedIds : List Json) : List Contact :=
  (db.contacts.map (fun c =>
    if c.id == primaryId then
      applyMergedFields now primary duplicates duplicateIds prevMergedIds c
    else c)).map (markMerged now primaryId duplicateIds)

/-- Step 4 of the `mergeContacts` transaction: re-point every foreign
reference (conversations, agreements, notes, sources, agent assignments,
form submissions, voice calls) from the duplicate ids to the primary
id. -/
def repointAll (db : DB) (primaryId : String) (duplicateIds : List String) : DB :=
  { db with
      conversations := db.conversations.map (fun r =>
        if duplicateIds.contains r.contactId then { r with contactId := primaryId } else r)
      agreements := db.agreements.map (fun r =>
        if duplicateIds.contains r.contactId then { r with contactId := primaryId } else r)
      notes := db.notes.map (fun r =>
        if duplicateIds.contains r.contactId then { r with contactId := primaryId } else r)
      sources := db.sources.map (fun r =>
        if duplicateIds.contains r.contactId then { r with contactId := primaryId } else r)
      assignments := db.assignments.map (fun r =>
        if duplicateIds.contains r.contactId then { r with contactId := primaryId } else r)
      formSubmissions := db.formSubmissions.map (fun r =>
        if duplicateIds.contains r.contactId then { r with contactId := primaryId } else r)
      voiceCalls := db.voiceCalls.map (fun r =>
        if duplicateIds.contains r.contactId then { r with contactId := primaryId } else r) }

/-- Steps 3–7 of the `mergeContacts` transaction, after the loads and the
`mergedContactIds` spread succeeded: write the merged fields, re-point
the foreign references, mark the duplicates merged, and re-read the
primary. -/
def mergeApply (db : DB) (now : Int) (primaryId : String)
    (duplicateIds : List String) (primary : Contact) (duplicates : List Contact)
    (prevMergedIds : List Json) : Except String (DB × Contact) :=
  match (mergedContactsList db now primaryId duplicateIds primary duplicates
      prevMergedIds).find? (fun c => c.id == primaryId) with
  | none => .error "Failed to retrieve updated primary contact"
  | some updatedPrimary =>
    .ok ({ repointAll db primaryId duplicateIds with
            contacts := mergedContactsList db now primaryId duplicateIds primary
              duplicates prevMergedIds },
          updatedPrimary)

/-- The transaction body of `mergeContacts(primaryId, duplicateIds)`:
load primary and duplicates (not-found errors when the primary is absent
or no duplicate row matches), spread the primary's stored
`mergedContactIds`, then apply the merge (`mergeApply`). -/
def mergeContactsTx (db : DB) (now : Int) (primaryId : String)
    (duplicateIds : List String) : Except String (DB × Contact) :=
  match db.contacts.find? (fun c => c.id == primaryId) with
  | none => .error "Primary contact not found"
  | some primary =>
    let duplicates := db.contacts.filter (fun c => duplicateIds.contains c.id)
    if duplicates.length = 0 then .error "No duplicate contacts found"
    else
      (match primary.mergedContactIds with
        | none => Except.ok []
        | some j => spreadJson j).bind
        (mergeApply db now primaryId duplicateIds primary duplicates)

/-- The row update performed by `recalculateHeatScore`: stamp the freshly
computed heat score and `updatedAt` onto the matching contact row. -/
def heatStamp (now : Int) (contactId : String) (score : Int) (c : Contact) : Contact :=
  if c.id == contactId then { c with heatScore := score, updatedAt := now } else c

/-- `recalculateHeatScore(contactId)` from `scoring.ts`: compute the heat
score and persist it (with a fresh `updatedAt`) on the contact row. -/
def recalculateHeatScore (db : DB) (now : Int) (contactId : String) :
    Except String (DB × Int) :=
  match calculateHeatScore db.contacts now contactId with
  | .error e => .error e
  | .ok score =>
    .ok ({ db with contacts := db.contacts.map (heatStamp now contactId score) }, score)

/-- `mergeContacts(primaryId, duplicateIds)` from `merger.ts`: the
transaction, then (in the `.then`, outside the transaction)
`recalculateHeatScore(primaryId)`.  The recalculation cannot fail here:
the primary row exists after the transaction. -/
def mergeContacts (db : DB) (now : Int) (primaryId : String)
    (duplicateIds : List String) : Except String (DB × Contact) :=
  match mergeContactsTx db now primaryId duplicateIds with
  | .error e => .error e
  | .ok (db1, result) =>
    match recalculateHeatScore db1 now primaryId with
    | .error e => .error e
    | .ok (db2, _) => .ok (db2, result)

/-- One loop iteration of `autoMergeHighConfidenceDuplicates`: detect
duplicates of the snapshot contact at threshold `0.9` against the current
store, keep candidates with confidence `≥ 0.95`, merge them into the
contact (a failed merge is caught, logged and skipped). -/
def autoMergeStep (organizationId : String) (now : Int) (st : DB × Nat)
    (contact : Contact) : DB × Nat :=
  let duplicates := detectDuplicateContacts st.1.contacts organizationId
    { email := contact.email, phone := contact.phone,
      firstName := some contact.firstName, lastName := some contact.lastName }
    (mkRat 9 10)
  let highConfidenceDupes := duplicates.filter (fun d => decide (d.confidence ≥ mkRat 95 100))
  if highConfidenceDupes.length > 0 then
    match mergeContacts st.1 now contact.id (highConfidenceDupes.map (·.id)) with
    | .ok (db', _) => (db', st.2 + highConfidenceDupes.length)
    | .error _ => (st.1, st.2)
  else (st.1, st.2)

/-- `autoMergeHighConfidenceDuplicates(organizationId)` from `merger.ts`:
iterate over a snapshot of the organization's active contacts, merging
each one's high-confidence duplicate set; returns the final store and the
merge count. -/
def autoMergeHighConfidenceDuplicates (db : DB) (now : Int)
    (organizationId : String) : DB × Nat :=
  (activeOrgContacts db.contacts organizationId).foldl
    (autoMergeStep organizationId now) (db, 0)

/-- An organization with a single active contact with a non-null email. -/
def contactA : Contact :=
  { id := "a", organizationId := "org1", firstName := "Ana", lastName := "Perez",
    email := some "ana@x.com" }

def dbA : DB := { contacts := [contactA] }

/-- C2 (behaviour of the code at the failing input): running
`autoMergeHighConfidenceDuplicates` on an organization holding one active
contact with a non-null email merges that contact into itself —
`detectDuplicateContacts` reports the contact as its own exact-email
duplicate, so the loop marks it `status = "merged"` with `mergedWithId`
pointing at itself: a merge-pointer cycle whose target is not active,
violating the claimed invariant. -/
theorem autoMerge_self_merge_violation :
    (((autoMergeHighConfidenceDuplicates dbA 0 "org1").1.contacts.find?
        (fun c => c.id == "a")).map (fun c => (c.status, c.mergedWithId)))
      = some ("merged", some "a")
    ∧ (autoMergeHighConfidenceDuplicates dbA 0 "org1").2 = 1 := by
  constructor <;> rfl

/-- Contacts used in the C4 analysis. -/
def contactP : Contact :=
  { id := "p", organizationId := "o", firstName := "Pat", lastName := "Lee" }

def contactD1 : Contact :=
  { id := "d1", organizationId := "o", firstName := "Dana", lastName := "One" }

def dbPD : DB := { contacts := [contactP, contactD1] }

def dbD1 : DB := { contacts := [contactD1] }

/-- C4 counterexample: with the primary `"p"` and the duplicate `"d1"`
present but `"dx"` absent, `mergeContacts("p", ["d1", "dx"])` succeeds —
it does not fail with a not-found error even though one of the listed
duplicates is absent, so the claim as stated is false. -/
theorem mergeContacts_missing_duplicate_succeeds :
    (mergeContacts dbPD 0 "p" ["d1", "dx"]).isOk = true := by
  rfl

/-- C4 amended: `mergeContacts` fails with `"Primary contact not found"`
whenever the primary is absent, and with `"No duplicate contacts found"`
whenever the primary is present but none of the ids in `duplicateIds`
matches an existing contact (the error leaves the store untouched: the
caller keeps the pre-transaction `DB`). -/
theorem mergeContacts_not_found_errors
    (db : DB) (now : Int) (primaryId : String) (duplicateIds : List String) :
    (db.contacts.find? (fun c => c.id == primaryId) = none →
      mergeContacts db now primaryId duplicateIds
        = .error "Primary contact not found") ∧
    (∀ p, db.contacts.find? (fun c => c.id == primaryId) = some p →
      db.contacts.filter (fun c => duplicateIds.contains c.id) = [] →
      mergeContacts db now primaryId duplicateIds
        = .error "No duplicate contacts found") := by
  constructor
  · intro h
    unfold mergeContacts mergeContactsTx
    rw [h]
  · intro p hp hfil
    unfold mergeContacts mergeContactsTx
    rw [hp, hfil]
    rfl

/-- Witness for the amended C4 at concrete stores. -/
theorem mergeContacts_not_found_errors_witness :
    mergeContacts dbD1 0 "p" ["d1"] = .error "Primary contact not found" ∧
    mergeContacts dbPD 0 "p" ["zz"] = .error "No duplicate contacts found" :=
  ⟨(mergeContacts_not_found_errors dbD1 0 "p" ["d1"]).1 rfl,
   (mergeContacts_not_found_errors dbPD 0 "p" ["zz"]).2 contactP rfl rfl⟩

theorem find?_map_of_pred_inv {α : Type} (q : α → Bool) (g : α → α)
    (hg : ∀ x, q (g x) = q x) : ∀ l : List α,
    (l.map g).find? q = (l.find? q).map g := by
  intro l
  induction l with
  | nil => rfl
  | cons a as ih =>
    by_cases hqa : q a = true
    · rw [List.map_cons, List.find?_cons_of_pos _ (by rw [hg]; exact hqa),
        List.find?_cons_of_pos _ hqa]
      rfl
    · rw [List.map_cons, List.find?_cons_of_neg _ (by rw [hg]; exact hqa),
        List.find?_cons_of_neg _ hqa, ih]

theorem applyMergedFields_id (now : Int) (p : Contact) (dups : List Contact)
    (dids : List String) (prev : List Json) (c : Contact) :
    (applyMergedFields now p dups dids prev c).id = c.id := rfl

theorem markMerged_id (now : Int) (pid : String) (dids : List String) (c : Contact) :
    (markMerged now pid dids c).id = c.id := by
  unfold markMerged
  split <;> rfl

theorem heatStamp_id (now : Int) (cid : String) (s : Int) (c : Contact) :
    (heatStamp now cid s c).id = c.id := by
  unfold heatStamp
  split <;> rfl

theorem mergedContactsList_find (db : DB) (now : Int) (pid : String)
    (dids : List String) (p : Contact) (dups : List Contact) (prev : List Json)
    (hp : db.contacts.find? (fun c => c.id == pid) = some p)
    (hpid : p.id = pid)
    (hpdup : dids.contains pid = false) :
    (mergedContactsList db now pid dids p dups prev).find? (fun c => c.id == pid)
      = some (applyMergedFields now p dups dids prev p) := by
  unfold mergedContactsList
  rw [find?_map_of_pred_inv _ _ (fun c => by rw [markMerged_id]),
      find?_map_of_pred_inv _ _ (fun c => by split <;> rfl), hp]
  have hcond : (p.id == pid) = true := by
    rw [hpid]
    exact beq_self_eq_true pid
  simp only [Option.map_some']
  rw [if_pos hcond]
  unfold markMerged
  rw [if_neg (by
    rw [applyMergedFields_id, hpid, hpdup]
    exact Bool.false_ne_true)]

theorem mergeContactsTx_eq (db : DB) (now : Int) (pid : String) (dids : List String)
    (p : Contact) (dups : List Contact) (prev : List Json)
    (hp : db.contacts.find? (fun c => c.id == pid) = some p)
    (hdups : db.contacts.filter (fun c => dids.contains c.id) = dups)
    (hdnz : dups ≠ [])
    (hprev : (p.mergedContactIds = none ∧ prev = [])
      ∨ p.mergedContactIds = some (.arr prev)) :
    mergeContactsTx db now pid dids = mergeApply db now pid dids p dups prev := by
  unfold mergeContactsTx
  rw [hp]
  simp only [hdups]
  rw [if_neg (by simpa [List.length_eq_zero] using hdnz)]
  rcases hprev with ⟨hm, hprev0⟩ | hm
  · subst hprev0
    rw [hm]
    rfl
  · rw [hm]
    rfl

theorem recalculateHeatScore_eq (db1 : DB) (now : Int) (pid : String) (c : Contact)
    (hfind : db1.contacts.find? (fun c => c.id == pid) = some c) :
    recalculateHeatScore db1 now pid = .ok
      ({ db1 with
          contacts := db1.contacts.map (heatStamp now pid (calculateHeatScoreOf now c)) },
        calculateHeatScoreOf now c) := by
  unfold recalculateHeatScore calculateHeatScore
  rw [hfind]

theorem mergeContacts_eq (db : DB) (now : Int) (pid : String) (dids : List String)
    (p : Contact) (dups : List Contact) (prev : List Json)
    (hp : db.contacts.find? (fun c => c.id == pid) = some p)
    (hpid : p.id = pid)
    (hdups : db.contacts.filter (fun c => dids.contains c.id) = dups)
    (hdnz : dups ≠ [])
    (hprev : (p.mergedContactIds = none ∧ prev = [])
      ∨ p.mergedContactIds = some (.arr prev))
    (hpdup : dids.contains pid = false) :
    mergeContacts db now pid dids = .ok
      ({ repointAll db pid dids with
          contacts := (mergedContactsList db now pid dids p dups prev).map
            (heatStamp now pid (calculateHeatScoreOf now
              (applyMergedFields now p dups dids prev p))) },
        applyMergedFields now p dups dids prev p) := by
  have h1 := mergedContactsList_find db now pid dids p dups prev hp hpid hpdup
  have h2 : mergeContactsTx db now pid dids = .ok
      ({ repointAll db pid dids with
          contacts := mergedContactsList db now pid dids p dups prev },
        applyMergedFields now p dups dids prev p) := by
    rw [mergeContactsTx_eq db now pid dids p dups prev hp hdups hdnz hprev]
    unfold mergeApply
    rw [h1]
  have h1' : ({ repointAll db pid dids with
      contacts := mergedContactsList db now pid dids p dups prev } : DB).contacts.find?
        (fun c => c.id == pid) = some (applyMergedFields now p dups dids prev p) := h1
  unfold mergeContacts
  rw [h2]
  show (match recalculateHeatScore
        ({ repointAll db pid dids with
            contacts := mergedContactsList db now pid dids p dups prev }) now pid with
      | Except.error e => Except.error e
      | Except.ok (db2, _) =>
        Except.ok (db2, applyMergedFields now p dups dids prev p)) = _
  rw [recalculateHeatScore_eq _ now pid _ h1']

theorem heatStamp_status (now : Int) (cid : String) (s : Int) (c : Contact) :
    (heatStamp now cid s c).status = c.status := by
  unfold heatStamp
  split <;> rfl

theorem heatStamp_interactionCount (now : Int) (cid : String) (s : Int) (c : Contact) :
    (heatStamp now cid s c).interactionCount = c.interactionCount := by
  unfold heatStamp
  split <;> rfl

theorem repoint_map_mem {α : Type} (cidOf : α → String) (setCid : α → String → α)
    (pid did1 did2 : String) (h12 : pid ≠ did1) (h13 : pid ≠ did2)
    (hset : ∀ r s, cidOf (setCid r s) = s) (l : List α) :
    (∀ r ∈ l, cidOf r = did1 ∨ cidOf r = did2 →
      setCid r pid ∈ l.map (fun r =>
        if [did1, did2].contains (cidOf r) then setCid r pid else r)) ∧
    (∀ r' ∈ l.map (fun r =>
        if [did1, did2].contains (cidOf r) then setCid r pid else r),
      cidOf r' ≠ did1 ∧ cidOf r' ≠ did2) := by
  constructor
  · intro r hr hor
    have he : (if [did1, did2].contains (cidOf r) then setCid r pid else r)
        = setCid r pid := by
      rw [if_pos]
      rcases hor with h | h <;> simp [h]
    rw [← he]
    exact List.mem_map_of_mem _ hr
  · intro r' hr'
    rcases List.mem_map.mp hr' with ⟨r0, hr0, rfl⟩
    by_cases hc : ([did1, did2].contains (cidOf r0)) = true
    · rw [if_pos hc, hset]
      exact ⟨h12, h13⟩
    · rw [if_neg hc]
      refine ⟨fun h => hc (by simp [h]), fun h => hc (by simp [h])⟩

/-- C1 (amended): for `mergeContacts(primary, [dup1, dup2])` on three
distinct existing contacts where the primary is active beforehand and its
stored `mergedContactIds` column is `NULL` or a JSON array, after a
successful call: the primary row is still active and both duplicate rows
are `merged` (so exactly one of the three is active); every conversation,
agreement and note row that pointed at a duplicate now points at the
primary (and no such row points at a duplicate any more); and the
primary's `interactionCount` is the sum of the three pre-merge
`interactionCount`s. -/
theorem mergeContacts_merge_semantics
    (db : DB) (now : Int) (pid did1 did2 : String) (p d1 d2 : Contact)
    (hp : db.contacts.find? (fun c => c.id == pid) = some p)
    (hpid : p.id = pid) (hd1 : d1.id = did1) (hd2 : d2.id = did2)
    (hdups : db.contacts.filter (fun c => [did1, did2].contains c.id) = [d1, d2])
    (h12 : pid ≠ did1) (h13 : pid ≠ did2) (h23 : did1 ≠ did2)
    (hactive : p.status = "active")
    (hprev : p.mergedContactIds = none ∨ ∃ l, p.mergedContactIds = some (Json.arr l))
    (db' : DB) (res : Contact)
    (hcall : mergeContacts db now pid [did1, did2] = .ok (db', res)) :
    ((db'.contacts.find? (fun c => c.id == pid)).map Contact.status = some "active")
    ∧ (∀ c ∈ db'.contacts, c.id = did1 ∨ c.id = did2 → c.status = "merged")
    ∧ (∀ r ∈ db.conversations, r.contactId = did1 ∨ r.contactId = did2 →
        ∃ r' ∈ db'.conversations, r'.id = r.id ∧ r'.contactId = pid)
    ∧ (∀ r' ∈ db'.conversations, r'.contactId ≠ did1 ∧ r'.contactId ≠ did2)
    ∧ (∀ r ∈ db.agreements, r.contactId = did1 ∨ r.contactId = did2 →
        ∃ r' ∈ db'.agreements, r'.id = r.id ∧ r'.contactId = pid)
    ∧ (∀ r' ∈ db'.agreements, r'.contactId ≠ did1 ∧ r'.contactId ≠ did2)
    ∧ (∀ r ∈ db.notes, r.contactId = did1 ∨ r.contactId = did2 →
        ∃ r' ∈ db'.notes, r'.id = r.id ∧ r'.contactId = pid)
    ∧ (∀ r' ∈ db'.notes, r'.contactId ≠ did1 ∧ r'.contactId ≠ did2)
    ∧ ((db'.contacts.find? (fun c => c.id == pid)).map Contact.interactionCount
        = some (p.interactionCount + d1.interactionCount + d2.interactionCount)) := by
  have hpdup : ([did1, did2].contains pid) = false := by
    simp [h12, h13]
  obtain ⟨prev, hprev2⟩ : ∃ prev, (p.mergedContactIds = none ∧ prev = ([] : List Json))
      ∨ p.mergedContactIds = some (Json.arr prev) := by
    rcases hprev with h | ⟨l, hl⟩
    · exact ⟨[], Or.inl ⟨h, rfl⟩⟩
    · exact ⟨l, Or.inr hl⟩
  have hok := mergeContacts_eq db now pid [did1, did2] p [d1, d2] prev hp hpid hdups
    (by simp) hprev2 hpdup
  have hpair := Except.ok.inj (hok.symm.trans hcall)
  have hdb : db' = { repointAll db pid [did1, did2] with
      contacts := (mergedContactsList db now pid [did1, did2] p [d1, d2] prev).map
        (heatStamp now pid (calculateHeatScoreOf now
          (applyMergedFields now p [d1, d2] [did1, did2] prev p))) } :=
    (congrArg Prod.fst hpair).symm
  have hfindL := mergedContactsList_find db now pid [did1, did2] p [d1, d2] prev
    hp hpid hpdup
  have hfind' : (db'.contacts.find? (fun c => c.id == pid))
      = some (heatStamp now pid (calculateHeatScoreOf now
          (applyMergedFields now p [d1, d2] [did1, did2] prev p))
        (applyMergedFields now p [d1, d2] [did1, did2] prev p)) := by
    rw [hdb]
    show ((mergedContactsList db now pid [did1, did2] p [d1, d2] prev).map
        (heatStamp now pid (calculateHeatScoreOf now
          (applyMergedFields now p [d1, d2] [did1, did2] prev p)))).find?
        (fun c => c.id == pid) = _
    rw [find?_map_of_pred_inv _ _ (fun c => by unfold heatStamp; split <;> rfl), hfindL]
    rfl
  subst hdb
  refine ⟨?_, ?_, ?_, ?_, ?_, ?_, ?_, ?_, ?_⟩
  · rw [hfind', Option.map_some']
    show some (heatStamp _ _ _ _).status = some "active"
    rw [heatStamp_status]
    show some p.status = some "active"
    rw [hactive]
  · intro c hc hor
    have hc1 : c ∈ ((db.contacts.map (fun c =>
        if c.id == pid then applyMergedFields now p [d1, d2] [did1, did2] prev c
        else c)).map (markMerged now pid [did1, did2])).map
          (heatStamp now pid (calculateHeatScoreOf now
            (applyMergedFields now p [d1, d2] [did1, did2] prev p))) := hc
    rcases List.mem_map.mp hc1 with ⟨c2, hc2, rfl⟩
    rcases List.mem_map.mp hc2 with ⟨c1, hc1', rfl⟩
    rcases List.mem_map.mp hc1' with ⟨c0, hc0, rfl⟩
    have hideq : (heatStamp now pid (calculateHeatScoreOf now
        (applyMergedFields now p [d1, d2] [did1, did2] prev p))
        (markMerged now pid [did1, did2]
        (if c0.id == pid then applyMergedFields now p [d1, d2] [did1, did2] prev c0
         else c0))).id = c0.id := by
      rw [heatStamp_id, markMerged_id]
      split <;> rfl
    rw [hideq] at hor
    have hcont : ([did1, did2].contains
        (if c0.id == pid then applyMergedFields now p [d1, d2] [did1, did2] prev c0
         else c0).id) = true := by
      have hio : (if c0.id == pid then
          applyMergedFields now p [d1, d2] [did1, did2] prev c0 else c0).id = c0.id := by
        split <;> rfl
      rw [hio]
      rcases hor with h | h <;> simp [h]
    rw [heatStamp_status]
    unfold markMerged
    rw [if_pos hcont]
  · intro r hr hor
    refine ⟨{ r with contactId := pid }, ?_, rfl, rfl⟩
    exact (repoint_map_mem Conversation.contactId
      (fun r s => { r with contactId := s }) pid did1 did2 h12 h13
      (fun _ _ => rfl) db.conversations).1 r hr hor
  · intro r' hr'
    exact (repoint_map_mem Conversation.contactId
      (fun r s => { r with contactId := s }) pid did1 did2 h12 h13
      (fun _ _ => rfl) db.conversations).2 r' hr'
  · intro r hr hor
    refine ⟨{ r with contactId := pid }, ?_, rfl, rfl⟩
    exact (repoint_map_mem ContactAgreement.contactId
      (fun r s => { r with contactId := s }) pid did1 did2 h12 h13
      (fun _ _ => rfl) db.agreements).1 r hr hor
  · intro r' hr'
    exact (repoint_map_mem ContactAgreement.contactId
      (fun r s => { r with contactId := s }) pid did1 did2 h12 h13
      (fun _ _ => rfl) db.agreements).2 r' hr'
  · intro r hr hor
    refine ⟨{ r with contactId := pid }, ?_, rfl, rfl⟩
    exact (repoint_map_mem ContactNote.contactId
      (fun r s => { r with contactId := s }) pid did1 did2 h12 h13
      (fun _ _ => rfl) db.notes).1 r hr hor
  · intro r' hr'
    exact (repoint_map_mem ContactNote.contactId
      (fun r s => { r with contactId := s }) pid did1 did2 h12 h13
      (fun _ _ => rfl) db.notes).2 r' hr'
  · rw [hfind', Option.map_some']
    show some (heatStamp _ _ _ _).interactionCount = _
    rw [heatStamp_interactionCount]
    show some (p.interactionCount + ([d1, d2].map (·.interactionCount)).sum) = _
    simp only [List.map_cons, List.map_nil, List.sum_cons, List.sum_nil]
    congr 1
    omega

/-- Concrete three-contact store used to witness C1. -/
def pW : Contact :=
  { id := "p", organizationId := "o", firstName := "Pat", lastName := "Lee",
    interactionCount := 2 }

def d1W : Contact :=
  { id := "d1", organizationId := "o", firstName := "Dana", lastName := "One",
    interactionCount := 3 }

def d2W : Contact :=
  { id := "d2", organizationId := "o", firstName := "Dee", lastName := "Two",
    interactionCount := 5 }

def dbW1 : DB :=
  { contacts := [pW, d1W, d2W],
    conversations := [{ id := "cv1", organizationId := "o", contactId := "d1",
                        channel := "whatsapp" }],
    agreements := [{ id := "ag1", organizationId := "o", contactId := "d2",
                     type := "custom", description := "poc" }],
    notes := [{ id := "n1", organizationId := "o", contactId := "d1", content := "hi" }] }

/-- The store and contact `mergeContacts` returns on `dbW1`. -/
def mergeW1 : DB × Contact :=
  match mergeContacts dbW1 0 "p" ["d1", "d2"] with
  | .ok pr => pr
  | .error _ => (dbW1, pW)

/-- Witness for the amended C1 at the concrete store `dbW1`. -/
theorem mergeContacts_merge_semantics_witness :
    ((mergeW1.1.contacts.find? (fun c => c.id == "p")).map Contact.status = some "active")
    ∧ (∀ c ∈ mergeW1.1.contacts, c.id = "d1" ∨ c.id = "d2" → c.status = "merged")
    ∧ (∀ r ∈ dbW1.conversations, r.contactId = "d1" ∨ r.contactId = "d2" →
        ∃ r' ∈ mergeW1.1.conversations, r'.id = r.id ∧ r'.contactId = "p")
    ∧ (∀ r' ∈ mergeW1.1.conversations, r'.contactId ≠ "d1" ∧ r'.contactId ≠ "d2")
    ∧ (∀ r ∈ dbW1.agreements, r.contactId = "d1" ∨ r.contactId = "d2" →
        ∃ r' ∈ mergeW1.1.agreements, r'.id = r.id ∧ r'.contactId = "p")
    ∧ (∀ r' ∈ mergeW1.1.agreements, r'.contactId ≠ "d1" ∧ r'.contactId ≠ "d2")
    ∧ (∀ r ∈ dbW1.notes, r.contactId = "d1" ∨ r.contactId = "d2" →
        ∃ r' ∈ mergeW1.1.notes, r'.id = r.id ∧ r'.contactId = "p")
    ∧ (∀ r' ∈ mergeW1.1.notes, r'.contactId ≠ "d1" ∧ r'.contactId ≠ "d2")
    ∧ ((mergeW1.1.contacts.find? (fun c => c.id == "p")).map Contact.interactionCount
        = some (pW.interactionCount + d1W.interactionCount + d2W.interactionCount)) :=
  mergeContacts_merge_semantics dbW1 0 "p" "d1" "d2" pW d1W d2W rfl rfl rfl rfl rfl
    (by decide) (by decide) (by decide) rfl (Or.inl rfl) mergeW1.1 mergeW1.2 rfl

/-- C1 counterexample: with three distinct existing contacts whose
primary is `inactive`, `mergeContacts` succeeds but leaves zero active
contacts among them — not exactly one — so the claim as stated (with no
proviso on the primary's pre-merge status) is false. -/
def dbC1 : DB :=
  { contacts := [{ id := "p", organizationId := "o", firstName := "Pat",
                   lastName := "Lee", status := "inactive" }, d1W, d2W] }

theorem mergeContacts_inactive_primary_counterexample :
    (match mergeContacts dbC1 0 "p" ["d1", "d2"] with
      | .ok (db', _) => (db'.contacts.filter (fun c => c.status == "active")).length
      | .error _ => 99) = 0 := by
  rfl

/-!
## Agent Router (`src/lib/ember/agents/manager.ts`)
-/

/-- `AgentSelectionCriteria` from `manager.ts`. -/
structure AgentSelectionCriteria where
  channel : String
  contactId : Option String := none
  intent : Option String := none
  campaign : Option String := none
  priority : Option Int := none

/-- The JSON-column membership test of `selectBestAgent`:
`agent.assignToChannels ? JSON.parse(...) : []` followed by
`Array.isArray(parsed) && parsed.includes(value)` (`includes` uses `===`,
so only string elements can match). -/
def jsonArrayIncludes (col : Option Json) (v : String) : Bool :=
  match col with
  | some (.arr l) =>
    l.any (fun j =>
      match j with
      | .str s => s == v
      | _ => false)
  | _ => false

/-- The additive score `selectBestAgent` assigns to one agent: +30 for
channel eligibility, +25 for campaign match, +20 for the matching
type/intent rule (an else-if chain, so exactly one +20 can fire), +15 for
a non-`"none"` voice provider on the `"calls"` channel, +10 flat
availability baseline. -/
def agentScore (criteria : AgentSelectionCriteria) (agent : Agent) : Int :=
  (if jsonArrayIncludes agent.assignToChannels criteria.channel then 30 else 0)
  + (if truthy criteria.campaign
        && jsonArrayIncludes agent.assignToCampaigns (criteria.campaign.getD "")
     then 25 else 0)
  + (if agent.type == "qualifier" && !(truthy criteria.contactId) then 20
     else if agent.type == "sales" && criteria.intent == some "purchase" then 20
     else if agent.type == "support" && criteria.intent == some "help" then 20
     else if agent.type == "scheduler" && criteria.intent == some "schedule" then 20
     else 0)
  + (if criteria.channel == "calls" && !(agent.voiceProvider == "")
        && !(agent.voiceProvider == "none")
     then 15 else 0)
  + 10

/-- `selectBestAgent(organizationId, criteria)` from `manager.ts`: load
the organization's active agents, return `null` when there are none, else
stably sort by descending score and return the first entry. -/
def selectBestAgent (agents : List Agent) (organizationId : String)
    (criteria : AgentSelectionCriteria) : Option Agent :=
  let actives := agents.filter (fun a => a.organizationId == organizationId && a.active)
  if actives.length = 0 then none
  else (jsSortStable
    (fun a b => decide (agentScore criteria b ≤ agentScore criteria a)) actives).head?

theorem length_insertStable {α : Type} (ge : α → α → Bool) (a : α) (l : List α) :
    (insertStable ge a l).length = l.length + 1 := by
  induction l with
  | nil => rfl
  | cons b bs ih =>
    unfold insertStable
    split
    · rfl
    · simp [ih]

theorem length_jsSortStable {α : Type} (ge : α → α → Bool) (l : List α) :
    (jsSortStable ge l).length = l.length := by
  induction l with
  | nil => rfl
  | cons b bs ih =>
    show (insertStable ge b (jsSortStable ge bs)).length = bs.length + 1
    rw [length_insertStable, ih]

/-- The head of the stable descending sort is the first input element
attaining the maximal key. -/
theorem jsSortStable_head_first_max {α : Type} (key : α → Int) :
    ∀ (l : List α) (a : α),
    (jsSortStable (fun x y => decide (key y ≤ key x)) l).head? = some a →
    ∃ pre post, l = pre ++ a :: post ∧ (∀ b ∈ pre, key b < key a)
      ∧ ∀ b ∈ l, key b ≤ key a := by
  intro l
  induction l with
  | nil =>
    intro a h
    simp [jsSortStable] at h
  | cons x xs ih =>
    intro a h
    rw [show jsSortStable (fun x y => decide (key y ≤ key x)) (x :: xs)
        = insertStable (fun x y => decide (key y ≤ key x)) x
            (jsSortStable (fun x y => decide (key y ≤ key x)) xs) from rfl] at h
    rcases hS : jsSortStable (fun x y => decide (key y ≤ key x)) xs with _ | ⟨y, ys⟩
    · rw [hS] at h
      simp [insertStable] at h
      subst h
      have hxs : xs = [] := by
        rcases xs with _ | ⟨z, zs⟩
        · rfl
        · exfalso
          have : z ∈ jsSortStable (fun x y => decide (key y ≤ key x)) (z :: zs) :=
            (mem_jsSortStable _ _ _).mpr (List.mem_cons_self z zs)
          rw [hS] at this
          exact absurd this (List.not_mem_nil z)
      subst hxs
      exact ⟨[], [], rfl, by simp, by simp⟩
    · rw [hS] at h
      by_cases hge : (decide (key y ≤ key x)) = true
      · rw [show insertStable (fun x y => decide (key y ≤ key x)) x (y :: ys)
            = x :: y :: ys from by
              unfold insertStable
              rw [if_pos hge]] at h
        simp at h
        subst h
        refine ⟨[], xs, rfl, by simp, ?_⟩
        intro b hb
        rcases List.mem_cons.mp hb with rfl | hb
        · exact le_refl _
        · have hbS : b ∈ y :: ys := by
            rw [← hS]
            exact (mem_jsSortStable _ _ _).mpr hb
          have hsorted := pairwise_jsSortStable
            (fun x y => decide (key y ≤ key x))
            (fun u v => by
              rcases le_total (key v) (key u) with h' | h'
              · exact Or.inl (decide_eq_true h')
              · exact Or.inr (decide_eq_true h'))
            (fun u v w h1 h2 =>
              decide_eq_true (le_trans (of_decide_eq_true h2) (of_decide_eq_true h1)))
            xs
          rw [hS] at hsorted
          have hby : key b ≤ key y := by
            rcases List.mem_cons.mp hbS with rfl | hb'
            · exact le_refl _
            · exact of_decide_eq_true ((List.pairwise_cons.mp hsorted).1 b hb')
          exact le_trans hby (of_decide_eq_true hge)
      · rw [show insertStable (fun x y => decide (key y ≤ key x)) x (y :: ys)
            = y :: insertStable (fun x y => decide (key y ≤ key x)) x ys from by
              simp only [insertStable]
              rw [if_neg hge]] at h
        simp at h
        subst h
        obtain ⟨pre, post, hxs, hpre, hall⟩ := ih y (by rw [hS]; rfl)
        have hxy : key x < key y :=
          lt_of_not_le (fun hcon => hge (decide_eq_true hcon))
        refine ⟨x :: pre, post, by rw [hxs]; rfl, ?_, ?_⟩
        · intro b hb
          rcases List.mem_cons.mp hb with rfl | hb
          · exact hxy
          · exact hpre b hb
        · intro b hb
          rcases List.mem_cons.mp hb with rfl | hb
          · exact le_of_lt hxy
          · exact hall b hb

/-- C7: `selectBestAgent` returns `null` exactly when the organization
has no active agents; otherwise it returns an agent of maximal additive
score, the earliest such agent in input order. -/
theorem selectBestAgent_spec (agents : List Agent) (organizationId : String)
    (criteria : AgentSelectionCriteria) :
    (selectBestAgent agents organizationId criteria = none ↔
      agents.filter (fun a => a.organizationId == organizationId && a.active) = []) ∧
    (∀ a, selectBestAgent agents organizationId criteria = some a →
      ∃ pre post,
        agents.filter (fun a => a.organizationId == organizationId && a.active)
          = pre ++ a :: post
        ∧ (∀ b ∈ pre, agentScore criteria b < agentScore criteria a)
        ∧ ∀ b ∈ agents.filter (fun a => a.organizationId == organizationId && a.active),
            agentScore criteria b ≤ agentScore criteria a) := by
  constructor
  · unfold selectBestAgent
    by_cases hz : (agents.filter
        (fun a => a.organizationId == organizationId && a.active)).length = 0
    · rw [if_pos hz]
      simp [List.length_eq_zero.mp hz]
    · rw [if_neg hz]
      constructor
      · intro h
        have := List.head?_eq_none_iff.mp h
        rw [← List.length_eq_zero] at this
        rw [length_jsSortStable] at this
        exact absurd this hz
      · intro h
        rw [h] at hz
        exact absurd rfl hz
  · intro a h
    unfold selectBestAgent at h
    by_cases hz : (agents.filter
        (fun a => a.organizationId == organizationId && a.active)).length = 0
    · rw [if_pos hz] at h
      exact absurd h (by simp)
    · rw [if_neg hz] at h
      exact jsSortStable_head_first_max (agentScore criteria) _ a h

/-- A one-agent organization used to witness C7. -/
def agentW : Agent :=
  { id := "ag1", organizationId := "o", name := "Alpha", type := "sales",
    systemPrompt := "sp" }

/-- Witness for C7: with a single active agent, `selectBestAgent` returns
it and it is the first maximal-score agent. -/
theorem selectBestAgent_spec_witness :
    ∃ pre post,
      [agentW].filter (fun a => a.organizationId == "o" && a.active)
        = pre ++ agentW :: post
      ∧ (∀ b ∈ pre, agentScore { channel := "web" } b
          < agentScore { channel := "web" } agentW)
      ∧ ∀ b ∈ [agentW].filter (fun a => a.organizationId == "o" && a.active),
          agentScore { channel := "web" } b ≤ agentScore { channel := "web" } agentW :=
  (selectBestAgent_spec [agentW] "o" { channel := "web" }).2 agentW rfl

/-!
## Orchestration: conversation history (`src/unnamed/part_002`)
-/

/-- The `{role, content}` projection `getConversationHistory` returns. -/
structure ChatMessage where
  role : String
  content : String
deriving DecidableEq

/-- `getConversationHistory(conversationId, limit)`: load the
conversation's messages ordered by `createdAt` descending (ties keep
insertion order, per the append-only message store) with the SQL `limit`,
then reverse to chronological order, project `{role, content}`, and
filter out system messages — note the filter runs after the limit. -/
def getConversationHistory (msgs : List ConversationMessage)
    (conversationId : String) (limit : Nat) : List ChatMessage :=
  (((jsSortStable (fun a b => decide (b.createdAt ≤ a.createdAt))
      (msgs.filter (fun m => m.conversationId == conversationId))).take limit).reverse.map
    (fun m => ({ role := m.role, content := m.content } : ChatMessage))).filter
    (fun m => !(m.role == "system"))

theorem insertStable_eq_append {α : Type} (ge : α → α → Bool) (a : α)
    (l : List α) (h : ∀ b ∈ l, ge a b = false) : insertStable ge a l = l ++ [a] := by
  induction l with
  | nil => rfl
  | cons b bs ih =>
    unfold insertStable
    rw [if_neg (by rw [h b (List.mem_cons_self b bs)]; exact Bool.false_ne_true),
      ih (fun c hc => h c (List.mem_cons_of_mem b hc))]
    rfl

/-- Stably sorting a strictly ascending list in descending order reverses
it. -/
theorem jsSortStable_of_strict_ascending {α : Type} (key : α → Int) :
    ∀ l : List α, l.Pairwise (fun a b => key a < key b) →
    jsSortStable (fun x y => decide (key y ≤ key x)) l = l.reverse := by
  intro l
  induction l with
  | nil => intro _; rfl
  | cons x xs ih =>
    intro h
    rcases List.pairwise_cons.mp h with ⟨hx, hxs⟩
    show insertStable (fun x y => decide (key y ≤ key x)) x
      (jsSortStable (fun x y => decide (key y ≤ key x)) xs) = (x :: xs).reverse
    rw [ih hxs, insertStable_eq_append _ _ _ (fun b hb =>
      decide_eq_false (not_le.mpr (hx b (List.mem_reverse.mp hb)))),
      List.reverse_cons]

/-- C8 (amended): when the conversation's stored messages have strictly
increasing creation timestamps, `getConversationHistory` returns, in
chronological order, the non-system entries among the conversation's
`limit` most recent messages (all of them when fewer exist) — not the
`limit` most recent non-system messages. -/
theorem getConversationHistory_spec (msgs : List ConversationMessage)
    (conversationId : String) (limit : Nat)
    (hmono : (msgs.filter (fun m => m.conversationId == conversationId)).Pairwise
      (fun a b => a.createdAt < b.createdAt)) :
    getConversationHistory msgs conversationId limit
      = (((msgs.filter (fun m => m.conversationId == conversationId)).drop
            ((msgs.filter (fun m => m.conversationId == conversationId)).length
              - limit)).map
          (fun m => ({ role := m.role, content := m.content } : ChatMessage))).filter
          (fun m => !(m.role == "system")) := by
  unfold getConversationHistory
  rw [jsSortStable_of_strict_ascending ConversationMessage.createdAt _ hmono,
    List.take_reverse, List.reverse_reverse]

/-- The 21-message conversation showing the C8 claim false: messages
`0..19` are from the user, message `20` (the most recent) is a system
message. -/
def msgsC8 : List ConversationMessage :=
  (List.range 21).map (fun i =>
    { id := toString i, conversationId := "c", direction := "inbound",
      role := if i = 20 then "system" else "user", content := toString i,
      channel := "web", createdAt := (i : Int) })

/-- C8 counterexample: the conversation has 20 non-system messages, yet
`getConversationHistory(c, 20)` returns only 19 entries — the SQL limit
is applied before the system-role filter, so the oldest non-system
message is dropped.  The claim ("returns the conversation's 20 most
recent non-system messages") would require 20 entries here. -/
theorem getConversationHistory_limit_before_filter :
    (getConversationHistory msgsC8 "c" 20).length = 19 ∧
    (msgsC8.filter (fun m => !(m.role == "system"))).length = 20 := by
  constructor <;> rfl

/-- Witness for the amended C8 on the same concrete conversation. -/
theorem getConversationHistory_spec_witness :
    getConversationHistory msgsC8 "c" 20
      = (((msgsC8.filter (fun m => m.conversationId == "c")).drop
            ((msgsC8.filter (fun m => m.conversationId == "c")).length - 20)).map
          (fun m => ({ role := m.role, content := m.content } : ChatMessage))).filter
          (fun m => !(m.role == "system")) :=
  getConversationHistory_spec msgsC8 "c" 20 (by decide)

/-!
## Context Builder and Decision Engine
(`src/lib/ember/core/context-builder.ts`, decision half of the same file)
-/

/-- The `contact` part of `ContactContext`.  `tags` holds the parsed JSON
array elements (`null` parses to `[]` via `tags || []`; a non-array JSON
value would make the later `.includes` calls throw in JS and is not
represented). -/
structure ContextContact where
  id : String
  firstName : String
  lastName : String
  email : Option String := none
  phone : Option String := none
  company : Option String := none
  heatScore : Int := 0
  tags : List Json := []
  channelPreference : Option String := none
  timezone : Option String := none
  language : Option String := none
  lastInteractionAt : Option Int := none
  lastInteractionChannel : Option String := none
  interactionCount : Int := 0
  lifetimeValue : Option Int := some 0
  customFields : Json := .obj []

/-- One agreement entry of `ContactContext`. -/
structure ContextAgreement where
  id : String
  type : String
  description : String
  details : Json := .obj []
  status : String := "active"
  createdAt : Int := 0

/-- One note entry of `ContactContext`. -/
structure ContextNote where
  id : String
  content : String
  createdAt : Int := 0
  createdBy : Option String := none

/-- The `conversationSummary` part of `ContactContext`. -/
structure ConversationSummary where
  messageCount : Nat := 0
  firstMessage : Option Int := none
  lastMessage : Option Int := none
  topics : List String := []
  sentiment : Option String := none

/-- `ContactContext` from `context-builder.ts`. -/
structure ContactContext where
  contact : ContextContact
  agreements : List ContextAgreement := []
  notes : List ContextNote := []
  conversationSummary : ConversationSummary := {}

/-- `includes` on a parsed JSON array against a string (`===` semantics:
only string elements can match). -/
def jsonListIncludesStr (l : List Json) (v : String) : Bool :=
  l.any (fun j =>
    match j with
    | .str s => s == v
    | _ => false)

/-- JS `\s` class, approximated by `Char.isWhitespace`. -/
def isJsSpace (c : Char) : Bool := c.isWhitespace

/-- `detectIntent(response)` from `decision-maker.ts`: the intent keys
whose phrase list has a member contained in the lowercased response, in
object-key order. -/
def detectIntent (response : String) : List String :=
  (([("link", ["enviar enlace", "aquí está el link", "puedes ver en",
      "send link", "here\x27s the link"]),
    ("document", ["enviar documento", "adjunto", "archivo", "send document",
      "attachment", "file"]),
    ("quote", ["cotización", "presupuesto", "precio", "costo", "quote",
      "estimate", "price"]),
    ("meeting", ["reunión", "cita", "llamada", "agendar", "meeting",
      "appointment", "schedule"]),
    ("escalate", ["transferir", "hablar con", "agente humano", "transfer",
      "speak with", "human agent"]),
    ("product", ["producto", "inventario", "stock", "disponible", "product",
      "inventory", "available"]),
    ("important", ["importante", "nota", "recordar", "important", "note",
      "remember"])] : List (String × List String)).filter
    (fun p => p.2.any (fun pat => strIncludes (jsToLower response) pat))).map (·.1)

def urlProto1 : List Char := ['h', 't', 't', 'p', 's', ':', '/', '/']

def urlProto2 : List Char := ['h', 't', 't', 'p', ':', '/', '/']

/-- One attempt of the URL regex `https?:\/\/[^\s]+` at the current
position: the protocol (greedy `s?`), then a non-empty maximal run of
non-whitespace characters. -/
def matchUrlAt (l : List Char) : Option (List Char × List Char) :=
  if urlProto1.isPrefixOf l then
    if ((l.drop urlProto1.length).takeWhile (fun c => !(isJsSpace c))).isEmpty then none
    else some (urlProto1 ++ (l.drop urlProto1.length).takeWhile (fun c => !(isJsSpace c)),
      (l.drop urlProto1.length).dropWhile (fun c => !(isJsSpace c)))
  else if urlProto2.isPrefixOf l then
    if ((l.drop urlProto2.length).takeWhile (fun c => !(isJsSpace c))).isEmpty then none
    else some (urlProto2 ++ (l.drop urlProto2.length).takeWhile (fun c => !(isJsSpace c)),
      (l.drop urlProto2.length).dropWhile (fun c => !(isJsSpace c)))
  else none

theorem matchUrlAt_some {l url rest2 : List Char}
    (h : matchUrlAt l = some (url, rest2)) :
    l = url ++ rest2 ∧ url ≠ [] ∧ ∀ c ∈ url, isJsSpace c = false := by
  unfold matchUrlAt at h
  split at h
  · rename_i hp
    split at h
    · exact absurd h (by simp)
    · rcases Option.some.inj h with h'
      obtain ⟨t, ht⟩ := List.isPrefixOf_iff_prefix.mp hp
      have hdrop : l.drop urlProto1.length = t := by
        rw [← ht]
        exact List.drop_left urlProto1 t
      rcases Prod.mk.injEq _ _ _ _ ▸ h' with ⟨hurl, hrest⟩
      constructor
      · rw [← hurl, ← hrest, hdrop, List.append_assoc,
          List.takeWhile_append_dropWhile, ← hdrop]
        rw [← ht]
        rw [List.drop_left urlProto1 t]
      · constructor
        · rw [← hurl]
          simp [urlProto1]
        · intro c hc
          rw [← hurl] at hc
          rcases List.mem_append.mp hc with hc | hc
          · simp [urlProto1] at hc
            rcases hc with rfl | rfl | rfl | rfl | rfl | rfl | rfl | rfl <;> rfl
          · have := List.mem_takeWhile_imp hc
            simpa using this
  · split at h
    · rename_i hp
      split at h
      · exact absurd h (by simp)
      · rcases Option.some.inj h with h'
        obtain ⟨t, ht⟩ := List.isPrefixOf_iff_prefix.mp hp
        have hdrop : l.drop urlProto2.length = t := by
          rw [← ht]
          exact List.drop_left urlProto2 t
        rcases Prod.mk.injEq _ _ _ _ ▸ h' with ⟨hurl, hrest⟩
        constructor
        · rw [← hurl, ← hrest, hdrop, List.append_assoc,
            List.takeWhile_append_dropWhile, ← hdrop]
          rw [← ht]
          rw [List.drop_left urlProto2 t]
        · constructor
          · rw [← hurl]
            simp [urlProto2]
          · intro c hc
            rw [← hurl] at hc
            rcases List.mem_append.mp hc with hc | hc
            · simp [urlProto2] at hc
              rcases hc with rfl | rfl | rfl | rfl | rfl | rfl | rfl <;> rfl
            · have := List.mem_takeWhile_imp hc
              simpa using this
    · exact absurd h (by simp)

/-- The global scan of the URL regex: repeatedly find the leftmost match,
consume it, continue after it. -/
def urlScan (l : List Char) : List (List Char) :=
  match l with
  | [] => []
  | c :: rest =>
    match h : matchUrlAt (c :: rest) with
    | some (url, rest2) => url :: urlScan rest2
    | none => urlScan rest
termination_by l.length
decreasing_by
  · obtain ⟨heq, hne, _⟩ := matchUrlAt_some h
    have : (c :: rest).length = url.length + rest2.length := by
      rw [heq, List.length_append]
    simp only [List.length_cons] at this ⊢
    rcases url with _ | ⟨u, us⟩
    · exact absurd rfl hne
    · simp only [List.length_cons] at this
      omega
  · simp_arith

/-- `extractUrls(text)` from `decision-maker.ts`:
`text.match(/(https?:\/\/[^\s]+)/g) || []`. -/
def extractUrls (text : String) : List String :=
  (urlScan text.data).map String.mk

/-- JS `text.indexOf(needle)`, as an `Option` (none for `-1`). -/
def indexOfSub (hay needle : List Char) : Option Nat :=
  go hay 0
where
  go : List Char → Nat → Option Nat
    | l, i =>
      if needle.isPrefixOf l then some i
      else
        match l with
        | [] => none
        | _ :: t => go t (i + 1)

/-- `extractLinkTitle(text, url)` from `decision-maker.ts`: when the URL
occurs at a positive index, take the up-to-50 characters before it and
return the trimmed trailing run without `.`/`!`/`?` (the
`/([^.!?]+)$/` match); otherwise `"Link"`. -/
def extractLinkTitle (text url : String) : String :=
  match indexOfSub text.data url.data with
  | some idx =>
    if idx > 0 then
      let beforeUrl := (text.data.drop (idx - 50)).take (idx - (idx - 50))
      let run := (beforeUrl.reverse.takeWhile
        (fun c => !(c == '.' || c == '!' || c == '?'))).reverse
      if run.isEmpty then "Link" else (String.mk run).trim
    else "Link"
  | none => "Link"

/-- `detectDocumentType(response)` from `decision-maker.ts`. -/
def detectDocumentType (response : String) : String :=
  if strIncludes (jsToLower response) "pdf" then "pdf"
  else if strIncludes (jsToLower response) "contrato" then "contract"
  else if strIncludes (jsToLower response) "factura" then "invoice"
  else if strIncludes (jsToLower response) "recibo" then "receipt"
  else "document"

/-- `extractQuoteItems(response)`: a placeholder returning `[]`. -/
def extractQuoteItems (response : String) : List QuoteItem := []

/-- Case-insensitive (ASCII) literal match at the head of the text. -/
def matchWordCI (kw l : List Char) : Bool :=
  kw == (l.take kw.length).map Char.toLower

/-- Global scan for an alternation of case-insensitive literal words
(`/(w1|w2|…)/gi`): at each position the alternatives are tried in order;
a match is consumed. -/
def scanWordsCI (kws : List (List Char)) (l : List Char) : List (List Char) :=
  match l with
  | [] => []
  | c :: rest =>
    match h : kws.find? (fun kw => !kw.isEmpty && matchWordCI kw (c :: rest)) with
    | some kw => (c :: rest).take kw.length :: scanWordsCI kws ((c :: rest).drop kw.length)
    | none => scanWordsCI kws rest
termination_by l.length
decreasing_by
  · have hkw := List.find?_some h
    have h1 : (!kw.isEmpty) = true := by
      cases hb : (!kw.isEmpty) with
      | true => rfl
      | false =>
        rw [hb] at hkw
        simp at hkw
    have hlen : 1 ≤ kw.length := by
      rcases kw with _ | ⟨x, xs⟩
      · simp at h1
      · simp
    simp only [List.length_drop, List.length_cons]
    omega
  · simp_arith

/-- The trailing `\s*([^.!?]+)` of the extraction regexes: succeed when
the maximal run of non-`.!?` characters after the keyword is non-empty
(greedy `\s*` backtracks into the run as needed; the caller trims, which
erases the difference). -/
def captureAfter (kw : List Char) (l : List Char) : Option (List Char) :=
  if matchWordCI kw l then
    if ((l.drop kw.length).takeWhile
        (fun c => !(c == '.' || c == '!' || c == '?'))).isEmpty then none
    else some ((l.drop kw.length).takeWhile (fun c => !(c == '.' || c == '!' || c == '?')))
  else none

/-- Leftmost match of `kw ... capture` over the text, alternatives tried
in order at each position. -/
def reasonScan (kws : List (List Char)) : List Char → Option (List Char)
  | [] => none
  | c :: rest =>
    match kws.findSome? (fun kw => captureAfter kw (c :: rest)) with
    | some run => some run
    | none => reasonScan kws rest

/-- `shouldEscalate(response, context)` from `decision-maker.ts`:
an explicit escalation phrase, or a `vip`-tagged contact with lifetime
value above 100000. -/
def shouldEscalate (response : String) (context : ContactContext) : Bool :=
  if (["transferir", "conectar con", "hablar con un agente",
      "necesita asistencia especializada", "transfer", "connect with",
      "speak to an agent", "needs specialized assistance"] : List String).any
      (fun p => strIncludes (jsToLower response) p) then true
  else if jsonListIncludesStr context.contact.tags "vip"
      && decide (context.contact.lifetimeValue.getD 0 > 100000) then true
  else false

/-- `extractEscalationReason(response)` from `decision-maker.ts`
(`/(?:porque|debido a|razón:?)\s*([^.!?]+)/i`, else `"Complex query"`). -/
def extractEscalationReason (response : String) : String :=
  match reasonScan ["porque".data, "debido a".data, "razón:".data, "razón".data]
      response.data with
  | some run => (String.mk run).trim
  | none => "Complex query"

/-- `extractTags(response, context)` from `decision-maker.ts`. -/
def extractTags (response : String) (context : ContactContext) : List String :=
  ((if strIncludes (jsToLower response) "interesado"
        || strIncludes (jsToLower response) "interested"
    then ["interested"] else [])
  ++ (if strIncludes (jsToLower response) "cotización"
        || strIncludes (jsToLower response) "quote"
      then ["quote-requested"] else [])).filter
    (fun tag => !(jsonListIncludesStr context.contact.tags tag))

/-- `extractProductQuery(response)` from `decision-maker.ts`:
`/(?:producto|product):\s*([^.!?]+)/i`, then `/(?:buscar|search):\s*([^.!?]+)/i`,
else `null`. -/
def extractProductQuery (response : String) : Option String :=
  match reasonScan ["producto:".data, "product:".data] response.data with
  | some run => some ((String.mk run).trim)
  | none =>
    match reasonScan ["buscar:".data, "search:".data] response.data with
    | some run => some ((String.mk run).trim)
    | none => none

/-- The digit-time part of `extractTimeProposals`' first pattern
(`\d{1,2}:\d{2}`), greedy on the hour digits, then the `\s*(?:am|pm)?`
tail (the greedy `\s*` stays inside the capture even when `am`/`pm` is
absent). -/
def timeFinish (matched rest : List Char) : List Char × List Char :=
  match rest.dropWhile isJsSpace with
  | x :: y :: rest3 =>
    if (x.toLower == 'a' || x.toLower == 'p') && y.toLower == 'm' then
      (matched ++ rest.takeWhile isJsSpace ++ [x, y], rest3)
    else (matched ++ rest.takeWhile isJsSpace, rest.dropWhile isJsSpace)
  | _ => (matched ++ rest.takeWhile isJsSpace, rest.dropWhile isJsSpace)

def matchTime1 : List Char → Option (List Char × List Char)
  | a :: ':' :: c :: d :: rest =>
    if a.isDigit && c.isDigit && d.isDigit then
      some (timeFinish [a, ':', c, d] rest)
    else none
  | _ => none

def matchTimeAt (l : List Char) : Option (List Char × List Char) :=
  match l with
  | a :: b :: ':' :: c :: d :: rest =>
    if a.isDigit && b.isDigit && c.isDigit && d.isDigit then
      some (timeFinish [a, b, ':', c, d] rest)
    else matchTime1 l
  | _ => matchTime1 l

theorem timeFinish_len (matched rest : List Char) :
    (timeFinish matched rest).2.length ≤ rest.length := by
  have hdw : (rest.dropWhile isJsSpace).length ≤ rest.length :=
    (List.dropWhile_sublist isJsSpace).length_le
  unfold timeFinish
  split
  next xc yc tl heq =>
    have h3 : tl.length + 2 = (rest.dropWhile isJsSpace).length := by
      rw [heq]
      simp
    split
    · simp only []
      omega
    · exact hdw
  next _ =>
    exact hdw

theorem matchTime1_len {l m r2 : List Char} (h : matchTime1 l = some (m, r2)) :
    r2.length < l.length := by
  unfold matchTime1 at h
  split at h
  · rename_i a c d rest
    split at h
    · rcases Option.some.inj h with h'
      have h2 : r2 = (timeFinish [a, ':', c, d] rest).2 :=
        (congrArg Prod.snd h').symm
      have := timeFinish_len [a, ':', c, d] rest
      rw [← h2] at this
      simp only [List.length_cons]
      omega
    · exact absurd h (by simp)
  · exact absurd h (by simp)

theorem matchTimeAt_len {l m r2 : List Char} (h : matchTimeAt l = some (m, r2)) :
    r2.length < l.length := by
  unfold matchTimeAt at h
  split at h
  · rename_i a b c d rest
    split at h
    · rcases Option.some.inj h with h'
      have h2 : r2 = (timeFinish [a, b, ':', c, d] rest).2 :=
        (congrArg Prod.snd h').symm
      have := timeFinish_len [a, b, ':', c, d] rest
      rw [← h2] at this
      simp only [List.length_cons]
      omega
    · exact matchTime1_len h
  · exact matchTime1_len h

/-- Global scan of the `\d{1,2}:\d{2}\s*(?:am|pm)?` pattern. -/
def timeScan (l : List Char) : List (List Char) :=
  match l with
  | [] => []
  | c :: rest =>
    match h : matchTimeAt (c :: rest) with
    | some (matched, rest2) => matched :: timeScan rest2
    | none => timeScan rest
termination_by l.length
decreasing_by
  · exact matchTimeAt_len h
  · simp_arith

/-- `extractTimeProposals(response)` from `decision-maker.ts`: the
matches of the three global patterns, concatenated in pattern order. -/
def extractTimeProposals (response : String) : List String :=
  ((timeScan response.data).map String.mk)
  ++ ((scanWordsCI ["mañana".data, "tarde".data, "noche".data]
      response.data).map String.mk)
  ++ ((scanWordsCI ["lunes".data, "martes".data, "miércoles".data, "jueves".data,
      "viernes".data, "sábado".data, "domingo".data] response.data).map String.mk)

/-- `decideActions(aiResponse, agent, context, conversationId)` from
`decision-maker.ts`: each numbered branch of the source contributes its
pushed actions in order (the source's single `intent` variable is the
pure `detectIntent aiResponse`, inlined here), then the list is stably
sorted by descending priority.  A non-array `allowedActions` JSON value
would make the JS `.includes` throw; `jsonArrayIncludes` treats it as a
non-match. -/
def decideActions (aiResponse : String) (agent : Agent) (context : ContactContext)
    (conversationId : String) : List EmberAction :=
  jsSortStable (fun a b => decide (b.priority ≤ a.priority))
    ((if jsonArrayIncludes agent.allowedActions "send-link"
        && ((detectIntent aiResponse).contains "link" || strIncludes aiResponse "http")
      then (extractUrls aiResponse).map (fun url =>
        { type := "send-link",
          params := { conversationId := some conversationId, url := some url,
                      title := some (extractLinkTitle aiResponse url) },
          priority := 5 })
      else [])
    ++ (if jsonArrayIncludes agent.allowedActions "send-document"
          && ((detectIntent aiResponse).contains "document"
            || (detectIntent aiResponse).contains "file")
        then [{ type := "send-document",
                params := { conversationId := some conversationId,
                            documentType := some (detectDocumentType aiResponse) },
                priority := 7 }]
        else [])
    ++ (if jsonArrayIncludes agent.allowedActions "create-quote"
          && ((detectIntent aiResponse).contains "quote"
            || (detectIntent aiResponse).contains "price"
            || (detectIntent aiResponse).contains "cost")
        then [{ type := "create-quote",
                params := { conversationId := some conversationId,
                            contactId := some context.contact.id,
                            items := some (extractQuoteItems aiResponse) },
                priority := 9 }]
        else [])
    ++ (if jsonArrayIncludes agent.allowedActions "schedule-meeting"
          && ((detectIntent aiResponse).contains "meeting"
            || (detectIntent aiResponse).contains "appointment"
            || (detectIntent aiResponse).contains "call")
        then [{ type := "schedule-meeting",
                params := { conversationId := some conversationId,
                            contactId := some context.contact.id,
                            proposedTimes := some (extractTimeProposals aiResponse) },
                priority := 8 }]
        else [])
    ++ (if jsonArrayIncludes agent.allowedActions "transfer-to-human"
          && shouldEscalate aiResponse context
        then [{ type := "transfer-to-human",
                params := { conversationId := some conversationId,
                            reason := some (extractEscalationReason aiResponse),
                            priority := some "high" },
                priority := 10 }]
        else [])
    ++ (if jsonArrayIncludes agent.allowedActions "create-note"
          && (detectIntent aiResponse).contains "important"
        then [{ type := "create-note",
                params := { contactId := some context.contact.id,
                            content := some aiResponse, isImportant := some true },
                priority := 3 }]
        else [])
    ++ (if jsonArrayIncludes agent.allowedActions "update-tags"
          && decide ((extractTags aiResponse context).length > 0)
        then [{ type := "update-tags",
                params := { contactId := some context.contact.id,
                            tags := some (extractTags aiResponse context) },
                priority := 2 }]
        else [])
    ++ (if jsonArrayIncludes agent.allowedActions "search-product"
          && ((detectIntent aiResponse).contains "product"
            || (detectIntent aiResponse).contains "stock")
          && truthy (extractProductQuery aiResponse)
        then [{ type := "search-product",
                params := { query := extractProductQuery aiResponse,
                            conversationId := some conversationId },
                priority := 6 }]
        else []))

/-- The character list of `"https://example.com/promo"`. -/
def promoUrl : List Char :=
  ['h', 't', 't', 'p', 's', ':', '/', '/', 'e', 'x', 'a', 'm', 'p', 'l', 'e',
   '.', 'c', 'o', 'm', '/', 'p', 'r', 'o', 'm', 'o']

theorem listIncludes_of_infix {hay needle : List Char} (h : needle <:+: hay) :
    listIncludes hay needle = true := by
  obtain ⟨s, t, rfl⟩ := h
  unfold listIncludes
  rw [List.any_eq_true]
  refine ⟨needle ++ t, ?_, ?_⟩
  · rw [List.mem_tails]
    exact ⟨s, by rw [List.append_assoc]⟩
  · rw [List.isPrefixOf_iff_prefix]
    exact ⟨t, rfl⟩

theorem takeWhile_append_all (p : Char → Bool) (l1 l2 : List Char)
    (h : ∀ c ∈ l1, p c = true) :
    (l1 ++ l2).takeWhile p = l1 ++ l2.takeWhile p := by
  induction l1 with
  | nil => simp
  | cons a as ih =>
    rw [List.cons_append, List.takeWhile_cons_of_pos (h a (List.mem_cons_self a as)),
      ih (fun c hc => h c (List.mem_cons_of_mem a hc))]
    rfl

theorem urlScan_cons_some {c : Char} {rest url rest2 : List Char}
    (h : matchUrlAt (c :: rest) = some (url, rest2)) :
    urlScan (c :: rest) = url :: urlScan rest2 := by
  rw [urlScan]
  split
  · rename_i url' rest2' h'
    rw [h] at h'
    rcases Option.some.inj h' with h''
    injection h'' with h1 h2
    rw [h1, h2]
  · rename_i h'
    rw [h] at h'
    exact Option.noConfusion h'

theorem urlScan_cons_none {c : Char} {rest : List Char}
    (h : matchUrlAt (c :: rest) = none) : urlScan (c :: rest) = urlScan rest := by
  rw [urlScan]
  split
  · rename_i url' rest2' h'
    rw [h] at h'
    exact absurd h' (by simp)
  · rfl

theorem urlScan_ne_nil_some {l url rest2 : List Char} (hne : l ≠ [])
    (h : matchUrlAt l = some (url, rest2)) :
    urlScan l = url :: urlScan rest2 := by
  rcases l with _ | ⟨c, rest⟩
  · exact absurd rfl hne
  · exact urlScan_cons_some h

/-- At the start of the promo URL with a whitespace-or-end boundary on
the right, the regex matches exactly the promo URL. -/
theorem matchUrlAt_promo (post : List Char)
    (hpost : post = [] ∨ ∃ c post2, post = c :: post2 ∧ isJsSpace c = true) :
    ∃ rest2, matchUrlAt (promoUrl ++ post) = some (promoUrl, rest2) := by
  have hsplit : promoUrl ++ post = urlProto1 ++
      (['e', 'x', 'a', 'm', 'p', 'l', 'e', '.', 'c', 'o', 'm', '/', 'p', 'r',
        'o', 'm', 'o'] ++ post) := by
    simp [promoUrl, urlProto1]
  have htail : ∀ c ∈ (['e', 'x', 'a', 'm', 'p', 'l', 'e', '.', 'c', 'o', 'm',
      '/', 'p', 'r', 'o', 'm', 'o'] : List Char), (!(isJsSpace c)) = true := by
    decide
  have htp : post.takeWhile (fun c => !(isJsSpace c)) = [] := by
    rcases hpost with rfl | ⟨c, post2, rfl, hc⟩
    · rfl
    · exact List.takeWhile_cons_of_neg (by simp [hc])
  refine ⟨post.dropWhile (fun c => !(isJsSpace c)), ?_⟩
  unfold matchUrlAt
  rw [if_pos (List.isPrefixOf_iff_prefix.mpr ⟨_, hsplit.symm⟩)]
  rw [show (promoUrl ++ post).drop urlProto1.length
      = ['e', 'x', 'a', 'm', 'p', 'l', 'e', '.', 'c', 'o', 'm', '/', 'p', 'r',
         'o', 'm', 'o'] ++ post from by rw [hsplit]; exact List.drop_left _ _]
  rw [takeWhile_append_all _ _ _ htail, htp]
  rw [if_neg (by simp)]
  refine congrArg some ?_
  refine Prod.ext ?_ ?_
  · show urlProto1 ++ (_ ++ []) = promoUrl
    simp [urlProto1, promoUrl]
  · show List.dropWhile _ (_ ++ post) = _
    simp only [List.cons_append, List.nil_append]
    repeat rw [List.dropWhile_cons_of_pos (by decide)]

/-- If the promo URL occurs delimited on the left by the start of the text
or by the end of a (possibly whitespace-ended) prefix whose last character
is whitespace, and on the right by whitespace or the end of the text, then
the URL-regex global scan reports exactly the promo URL as one of its
matches. -/
theorem urlScan_promo_mem (pre post : List Char)
    (hpre : ∀ c, pre.getLast? = some c → isJsSpace c = true)
    (hpost : ∀ c, post.head? = some c → isJsSpace c = true) :
    promoUrl ∈ urlScan (pre ++ (promoUrl ++ post)) := by
  have H : ∀ n (pre : List Char), pre.length = n →
      (∀ c, pre.getLast? = some c → isJsSpace c = true) →
      promoUrl ∈ urlScan (pre ++ (promoUrl ++ post)) := by
    intro n
    induction n using Nat.strong_induction_on with
    | _ n ih =>
      intro pre hlen hpre
      rcases pre with _ | ⟨c, pre2⟩
      · simp only [List.nil_append]
        have hpost' : post = [] ∨ ∃ c post2, post = c :: post2 ∧
            isJsSpace c = true := by
          rcases post with _ | ⟨d, post2⟩
          · exact Or.inl rfl
          · exact Or.inr ⟨d, post2, rfl, hpost d rfl⟩
        obtain ⟨rest2, hm⟩ := matchUrlAt_promo post hpost'
        rw [urlScan_ne_nil_some (by simp [promoUrl]) hm]
        exact List.mem_cons_self _ _
      · rw [List.cons_append]
        cases hm : matchUrlAt (c :: (pre2 ++ (promoUrl ++ post))) with
        | none =>
          rw [urlScan_cons_none hm]
          refine ih pre2.length ?_ pre2 rfl ?_
          · simp only [List.length_cons] at hlen
            omega
          · intro d hd
            apply hpre
            rcases pre2 with _ | ⟨e, pre3⟩
            · exact absurd hd (by simp)
            · rw [List.getLast?_cons_cons]
              exact hd
        | some pr =>
          obtain ⟨url, rest2⟩ := pr
          rw [urlScan_cons_some hm]
          obtain ⟨heq, hne, hns⟩ := matchUrlAt_some hm
          have hne' : (c :: pre2) ≠ [] := by simp
          have hw : isJsSpace ((c :: pre2).getLast hne') = true :=
            hpre _ (List.getLast?_eq_getLast _ hne')
          have hpfx1 : url <+: (c :: pre2) ++ (promoUrl ++ post) :=
            ⟨rest2, by rw [List.cons_append, heq]⟩
          have hpfx2 : (c :: pre2) <+: (c :: pre2) ++ (promoUrl ++ post) :=
            List.prefix_append _ _
          have hlt : url.length < (c :: pre2).length := by
            by_contra hge
            push_neg at hge
            have hsub : (c :: pre2) <+: url :=
              List.prefix_of_prefix_length_le hpfx2 hpfx1 hge
            have hwmem : (c :: pre2).getLast hne' ∈ url :=
              hsub.subset (List.getLast_mem hne')
            have hfalse := hns _ hwmem
            rw [hw] at hfalse
            exact Bool.noConfusion hfalse
          have hpfx : url <+: (c :: pre2) :=
            List.prefix_of_prefix_length_le hpfx1 hpfx2 (le_of_lt hlt)
          obtain ⟨mid, hmid⟩ := hpfx
          have hmidne : mid ≠ [] := by
            intro h0
            rw [h0, List.append_nil] at hmid
            rw [hmid] at hlt
            exact lt_irrefl _ hlt
          have hrest2 : rest2 = mid ++ (promoUrl ++ post) := by
            have hx : url ++ rest2 = url ++ (mid ++ (promoUrl ++ post)) := by
              rw [← List.append_assoc url mid (promoUrl ++ post), hmid,
                List.cons_append]
              exact heq.symm
            exact List.append_cancel_left hx
          have hmidlast : ∀ d, mid.getLast? = some d → isJsSpace d = true := by
            intro d hd
            apply hpre
            rw [← hmid, List.getLast?_append_of_ne_nil _ hmidne]
            exact hd
          have hlen2 : mid.length < n := by
            have hadd : url.length + mid.length = (c :: pre2).length := by
              rw [← hmid, List.length_append]
            have hu : 0 < url.length := List.length_pos.mpr hne
            omega
          rw [hrest2]
          exact List.mem_cons_of_mem _ (ih mid.length hlen2 mid rfl hmidlast)
  exact H pre.length pre rfl hpre

/-- A concrete agent whose only allowed action is `send-link`. -/
def agentC9 : Agent :=
  { id := "ag9", organizationId := "org9", name := "Linker", type := "sales",
    allowedActions := some (.arr [.str "send-link"]) }

/-- A concrete non-VIP contact context with lifetime value 0. -/
def contextC9 : ContactContext :=
  { contact := { id := "ct9", firstName := "Val", lastName := "Ruiz" } }

/-- C9 (amended): for an agent whose `allowedActions` include `"send-link"`
and a response text in which `"https://example.com/promo"` occurs as a
whole whitespace-delimited URL (preceded by the start of the text or a
whitespace character, followed by the end of the text or a whitespace
character), with none of the eight escalation phrases present and a
contact that is not tagged VIP, `decideActions` returns a list containing
no priority-10 action and containing a send-link action whose
`params.url` equals `"https://example.com/promo"`, the list being sorted
in descending priority order. -/
theorem decideActions_send_link_spec (aiResponse : String) (agent : Agent)
    (context : ContactContext) (conversationId : String)
    (pre post : List Char)
    (hdata : aiResponse.data = pre ++ (promoUrl ++ post))
    (hpre : ∀ c, pre.getLast? = some c → isJsSpace c = true)
    (hpost : ∀ c, post.head? = some c → isJsSpace c = true)
    (hallow : jsonArrayIncludes agent.allowedActions "send-link" = true)
    (hph : ∀ p ∈ (["transferir", "conectar con", "hablar con un agente",
        "necesita asistencia especializada", "transfer", "connect with",
        "speak to an agent", "needs specialized assistance"] : List String),
      strIncludes (jsToLower aiResponse) p = false)
    (hvip : jsonListIncludesStr context.contact.tags "vip" = false) :
    (∀ a ∈ decideActions aiResponse agent context conversationId,
        a.priority ≠ 10)
    ∧ (∃ a ∈ decideActions aiResponse agent context conversationId,
        a.type = "send-link" ∧ a.params.url = some "https://example.com/promo")
    ∧ (decideActions aiResponse agent context conversationId).Pairwise
        (fun a b => b.priority ≤ a.priority) := by
  have hany : (["transferir", "conectar con", "hablar con un agente",
      "necesita asistencia especializada", "transfer", "connect with",
      "speak to an agent", "needs specialized assistance"] : List String).any
      (fun p => strIncludes (jsToLower aiResponse) p) = false := by
    rw [List.any_eq_false]
    intro p hp
    simp [hph p hp]
  have hesc : shouldEscalate aiResponse context = false := by
    unfold shouldEscalate
    rw [hany, if_neg Bool.false_ne_true, hvip, Bool.false_and,
      if_neg Bool.false_ne_true]
  have hinc : strIncludes aiResponse "http" = true := by
    unfold strIncludes
    apply listIncludes_of_infix
    rw [hdata]
    exact ⟨pre, List.drop 4 promoUrl ++ post, by simp [promoUrl]⟩
  have hguard : (jsonArrayIncludes agent.allowedActions "send-link"
      && ((detectIntent aiResponse).contains "link"
        || strIncludes aiResponse "http")) = true := by
    rw [hallow, hinc, Bool.or_true, Bool.and_true]
  have hurl : ("https://example.com/promo" : String) ∈ extractUrls aiResponse := by
    unfold extractUrls
    rw [hdata]
    exact List.mem_map.mpr ⟨promoUrl, urlScan_promo_mem pre post hpre hpost, rfl⟩
  refine ⟨?_, ?_, ?_⟩
  · intro a ha
    unfold decideActions at ha
    rw [mem_jsSortStable] at ha
    simp only [List.mem_append] at ha
    rcases ha with (((((((h | h) | h) | h) | h) | h) | h) | h)
    · split at h
      · obtain ⟨url, hu, rfl⟩ := List.mem_map.mp h
        show ¬((5 : Int) = 10)
        decide
      · rename_i hng
        exact absurd hguard hng
    · split at h
      · rw [List.mem_singleton] at h
        subst h
        show ¬((7 : Int) = 10)
        decide
      · exact absurd h (by simp)
    · split at h
      · rw [List.mem_singleton] at h
        subst h
        show ¬((9 : Int) = 10)
        decide
      · exact absurd h (by simp)
    · split at h
      · rw [List.mem_singleton] at h
        subst h
        show ¬((8 : Int) = 10)
        decide
      · exact absurd h (by simp)
    · rw [hesc, Bool.and_false, if_neg Bool.false_ne_true] at h
      exact absurd h (by simp)
    · split at h
      · rw [List.mem_singleton] at h
        subst h
        show ¬((3 : Int) = 10)
        decide
      · exact absurd h (by simp)
    · split at h
      · rw [List.mem_singleton] at h
        subst h
        show ¬((2 : Int) = 10)
        decide
      · exact absurd h (by simp)
    · split at h
      · rw [List.mem_singleton] at h
        subst h
        show ¬((6 : Int) = 10)
        decide
      · exact absurd h (by simp)
  · refine ⟨{ type := "send-link",
              params := { conversationId := some conversationId,
                          url := some "https://example.com/promo",
                          title := some (extractLinkTitle aiResponse
                            "https://example.com/promo") },
              priority := 5 }, ?_, rfl, rfl⟩
    unfold decideActions
    rw [mem_jsSortStable]
    simp only [List.mem_append]
    refine Or.inl (Or.inl (Or.inl (Or.inl (Or.inl (Or.inl (Or.inl ?_))))))
    rw [if_pos hguard]
    exact List.mem_map.mpr ⟨"https://example.com/promo", hurl, rfl⟩
  · have htot : ∀ a b : EmberAction,
        decide (b.priority ≤ a.priority) = true
        ∨ decide (a.priority ≤ b.priority) = true := by
      intro a b
      rcases le_total b.priority a.priority with h | h
      · exact Or.inl (decide_eq_true h)
      · exact Or.inr (decide_eq_true h)
    have htrans : ∀ a b c : EmberAction,
        decide (b.priority ≤ a.priority) = true →
        decide (c.priority ≤ b.priority) = true →
        decide (c.priority ≤ a.priority) = true := by
      intro a b c h1 h2
      exact decide_eq_true (le_trans (of_decide_eq_true h2) (of_decide_eq_true h1))
    unfold decideActions
    refine List.Pairwise.imp ?_
      (pairwise_jsSortStable (fun a b => decide (b.priority ≤ a.priority))
        htot htrans _)
    intro a b h
    exact of_decide_eq_true h

/-- The original, unamended C9 reading fails when
`"https://example.com/promo"` occurs in the response only as a proper
prefix of a longer URL: the response below contains that substring, yet
the greedy `[^\s]+` of the URL regex extracts the whole
`"https://example.com/promotion"`, so no send-link action carries
`params.url = "https://example.com/promo"`. -/
theorem decideActions_promo_substring_counterexample :
    strIncludes "Mira https://example.com/promotion" "https://example.com/promo" = true
    ∧ ((decideActions "Mira https://example.com/promotion" agentC9 contextC9
        "conv9").filter
          (fun a => a.params.url == some "https://example.com/promo")).length = 0
    ∧ ((decideActions "Mira https://example.com/promotion" agentC9 contextC9
        "conv9").filter
          (fun a => a.params.url == some "https://example.com/promotion")).length
        = 1 := by
  have h0 : "Mira https://example.com/promotion".data
      = 'M' :: 'i' :: 'r' :: 'a' :: ' ' :: "https://example.com/promotion".data := rfl
  have h1 : urlScan ('M' :: 'i' :: 'r' :: 'a' :: ' '
        :: "https://example.com/promotion".data)
      = urlScan ('i' :: 'r' :: 'a' :: ' ' :: "https://example.com/promotion".data) :=
    urlScan_cons_none rfl
  have h2 : urlScan ('i' :: 'r' :: 'a' :: ' ' :: "https://example.com/promotion".data)
      = urlScan ('r' :: 'a' :: ' ' :: "https://example.com/promotion".data) :=
    urlScan_cons_none rfl
  have h3 : urlScan ('r' :: 'a' :: ' ' :: "https://example.com/promotion".data)
      = urlScan ('a' :: ' ' :: "https://example.com/promotion".data) :=
    urlScan_cons_none rfl
  have h4 : urlScan ('a' :: ' ' :: "https://example.com/promotion".data)
      = urlScan (' ' :: "https://example.com/promotion".data) :=
    urlScan_cons_none rfl
  have h5 : urlScan (' ' :: "https://example.com/promotion".data)
      = urlScan ("https://example.com/promotion".data) :=
    urlScan_cons_none rfl
  have h6 : urlScan ("https://example.com/promotion".data)
      = "https://example.com/promotion".data :: urlScan ([] : List Char) :=
    urlScan_ne_nil_some (by decide) rfl
  have h7 : urlScan ([] : List Char) = [] := by
    rw [urlScan]
  have hurls : extractUrls "Mira https://example.com/promotion"
      = ["https://example.com/promotion"] := by
    unfold extractUrls
    rw [h0, h1, h2, h3, h4, h5, h6, h7]
    rfl
  refine ⟨rfl, ?_, ?_⟩
  · unfold decideActions
    rw [hurls]
    rfl
  · unfold decideActions
    rw [hurls]
    rfl

/-- Witness for C9: the amended theorem applied to the concrete response
`"Mira https://example.com/promo"` (prefix `"Mira "` ending in a space,
nothing after the URL), the send-link-only agent and a non-VIP contact. -/
theorem decideActions_send_link_spec_witness :
    (∀ a ∈ decideActions "Mira https://example.com/promo" agentC9 contextC9 "conv9",
        a.priority ≠ 10)
    ∧ (∃ a ∈ decideActions "Mira https://example.com/promo" agentC9 contextC9 "conv9",
        a.type = "send-link" ∧ a.params.url = some "https://example.com/promo")
    ∧ (decideActions "Mira https://example.com/promo" agentC9 contextC9
        "conv9").Pairwise (fun a b => b.priority ≤ a.priority) :=
  decideActions_send_link_spec "Mira https://example.com/promo" agentC9 contextC9
    "conv9" "Mira ".data [] rfl
    (by intro c hc
        have h2 : some ' ' = some c := hc
        cases Option.some.inj h2
        decide)
    (fun c hc => Option.noConfusion hc)
    rfl
    (by decide)
    rfl

/-!
## `processMessage` and its collaborators (`src/unnamed/part_002`,
`context-builder.ts`)

`consumeCredits` lives in `src/lib/billing/credits`, which is not part of
the `src/` tree; its contract is modelled from the spec (see
`ConsumeResult`). The actions executor is passed as a parameter
`exec`; its per-action behaviour has its own module and is outside the
claims about `processMessage`.
-/

/-- JS `v || dflt` on a nullable number column (`0` is falsy). -/
def jsOrInt (v : Option Int) (dflt : Int) : Int :=
  match v with
  | some t => if t = 0 then dflt else t
  | none => dflt

mutual

/-- A compact stand-in for `JSON.stringify(v, null, 2)` in
`buildSystemPrompt` (the model drops the pretty-printing whitespace; no
claim inspects the prompt text). -/
def jsonStringify : Json → String
  | .null => "null"
  | .bool true => "true"
  | .bool false => "false"
  | .num n => toString n
  | .str s => "\"" ++ s ++ "\""
  | .arr l => "[" ++ jsonStringifyArr l ++ "]"
  | .obj fs => "\x7b" ++ jsonStringifyObj fs ++ "\x7d"

def jsonStringifyArr : List Json → String
  | [] => ""
  | [j] => jsonStringify j
  | j :: rest => jsonStringify j ++ "," ++ jsonStringifyArr rest

def jsonStringifyObj : List (String × Json) → String
  | [] => ""
  | [(k, v)] => "\"" ++ k ++ "\":" ++ jsonStringify v
  | (k, v) :: rest =>
    "\"" ++ k ++ "\":" ++ jsonStringify v ++ "," ++ jsonStringifyObj rest

end

/-- `extractTopics(messages)` from `context-builder.ts`: collect, in
first-insertion order (the JS `Set` preserves it), every keyword included
in some lowercased message, then keep the first five. -/
def extractTopics (messages : List String) : List String :=
  ((messages.foldl (fun acc message =>
    (["precio", "costo", "envío", "entrega", "pago", "garantía", "devolución",
      "descuento", "promoción", "producto", "servicio", "soporte", "técnico",
      "instalación", "configuración", "price", "cost", "shipping", "delivery",
      "payment", "warranty", "return", "discount", "promotion", "product",
      "service", "support", "technical", "installation", "setup"] :
      List String).foldl (fun acc kw =>
        if strIncludes (jsToLower message) kw && !(acc.contains kw)
        then acc ++ [kw] else acc) acc) []).take 5)

/-- `analyzeSentiment(messages)` from `context-builder.ts` (note the
source's word lists repeat `"problema"` and `"error"`, so those hits count
twice per message). -/
def analyzeSentiment (messages : List String) : String :=
  let positiveCount := messages.foldl (fun n m =>
    n + ((["gracias", "excelente", "perfecto", "genial", "bueno", "bien",
      "happy", "thanks", "excellent", "perfect", "great", "good"] :
      List String).filter (fun w => strIncludes (jsToLower m) w)).length) 0
  let negativeCount := messages.foldl (fun n m =>
    n + ((["problema", "mal", "error", "molesto", "frustrado", "enojado",
      "problema", "issue", "bad", "error", "annoying", "frustrated", "angry",
      "problem"] : List String).filter
        (fun w => strIncludes (jsToLower m) w)).length) 0
  if positiveCount > negativeCount * 2 then "positive"
  else if negativeCount > positiveCount * 2 then "negative"
  else "neutral"

/-- `buildConversationSummary(conversationId)` from `context-builder.ts`:
all of the conversation's messages newest-first; empty conversations get
the zero summary. -/
def buildConversationSummary (msgs : List ConversationMessage)
    (conversationId : String) : ConversationSummary :=
  let messages := jsSortStable (fun a b => decide (b.createdAt ≤ a.createdAt))
    (msgs.filter (fun m => m.conversationId == conversationId))
  if messages.length = 0 then
    { messageCount := 0, firstMessage := none, lastMessage := none,
      topics := [], sentiment := none }
  else
    { messageCount := messages.length,
      firstMessage := messages.getLast?.map (·.createdAt),
      lastMessage := messages.head?.map (·.createdAt),
      topics := extractTopics (messages.map (·.content)),
      sentiment := some (analyzeSentiment (messages.map (·.content))) }

/-- `buildContext(contactId, conversationId)` from `context-builder.ts`:
the contact (or a `"Contact not found"` error), its active agreements
newest-first, its ten newest notes, and the conversation summary. A
non-array `tags` value is modelled as `[]` (the source would keep it, but
every later use requires an array); `customFields || {}` and
`details || {}` default the null case. -/
def buildContext (db : DB) (contactId : String) (conversationId : String) :
    Except String ContactContext :=
  match db.contacts.find? (fun c => c.id == contactId) with
  | none => .error "Contact not found"
  | some contact =>
    .ok {
      contact := {
        id := contact.id, firstName := contact.firstName,
        lastName := contact.lastName, email := contact.email,
        phone := contact.phone, company := contact.company,
        heatScore := contact.heatScore,
        tags := match contact.tags with | some (.arr l) => l | _ => [],
        channelPreference := contact.channelPreference,
        timezone := contact.timezone, language := contact.language,
        lastInteractionAt := contact.lastInteractionAt,
        lastInteractionChannel := contact.lastInteractionChannel,
        interactionCount := contact.interactionCount,
        lifetimeValue := contact.lifetimeValue,
        customFields := (match contact.customFields with
                         | some j => j
                         | none => .obj []) },
      agreements := (jsSortStable (fun a b => decide (b.createdAt ≤ a.createdAt))
          (db.agreements.filter (fun a =>
            a.contactId == contactId && a.status == "active"))).map
        (fun a => { id := a.id, type := a.type,
                    description := a.description,
                    details := (match a.details with
                                | some j => j
                                | none => .obj []),
                    status := a.status, createdAt := a.createdAt }),
      notes := ((jsSortStable (fun a b => decide (b.createdAt ≤ a.createdAt))
          (db.notes.filter (fun n => n.contactId == contactId))).take 10).map
        (fun n => { id := n.id, content := n.content,
                    createdAt := n.createdAt,
                    createdBy := n.createdById }),
      conversationSummary := buildConversationSummary db.messages conversationId }

/-- JS `v || {}` on a parsed-JSON column (falsy JSON values default). -/
def jsOrEmptyObj : Option Json → Json
  | none => .obj []
  | some .null => .obj []
  | some (.bool false) => .obj []
  | some (.num 0) => .obj []
  | some (.str "") => .obj []
  | some j => j

/-- JS `Object.keys(v).length` (arrays and strings expose index keys). -/
def objectKeysLength : Json → Nat
  | .obj fs => fs.length
  | .arr l => l.length
  | .str s => s.length
  | _ => 0

/-- JS template interpolation of a JSON value (string values print bare;
other shapes are approximated by the JSON rendering — no claim inspects
them). -/
def jsTemplateShow : Json → String
  | .str s => s
  | j => jsonStringify j

/-- `buildSystemPrompt(agent, context)` from `src/unnamed/part_002`.
A non-array `objectives` is modelled as `[]` (the source would iterate a
string's characters or throw); dates interpolate via their timestamp.
The `if (context)` guard of the source is always taken — `buildContext`
returns an object. -/
def buildSystemPrompt (agent : Agent) (context : ContactContext) : String :=
  (agent.systemPrompt ++ "\n\n")
  ++ (match (match agent.objectives with | some (.arr l) => l | _ => []) with
      | [] => ""
      | objectives => "## Your Objectives:\n"
          ++ String.join (objectives.map (fun o => "- " ++ jsTemplateShow o ++ "\n"))
          ++ "\n")
  ++ (if objectKeysLength (jsOrEmptyObj agent.knowledgeBase) > 0 then
        "## Knowledge Base:\n" ++ jsonStringify (jsOrEmptyObj agent.knowledgeBase)
          ++ "\n\n"
      else "")
  ++ ("## Contact Information:\n"
      ++ "- Name: " ++ context.contact.firstName ++ " "
        ++ context.contact.lastName ++ "\n"
      ++ (if truthy context.contact.email then
            "- Email: " ++ context.contact.email.getD "" ++ "\n" else "")
      ++ (if truthy context.contact.phone then
            "- Phone: " ++ context.contact.phone.getD "" ++ "\n" else "")
      ++ "- Heat Score: " ++ toString context.contact.heatScore ++ "/100\n"
      ++ "- Last Interaction: "
        ++ (match context.contact.lastInteractionAt with
            | some t => toString t
            | none => "null") ++ "\n"
      ++ "- Total Interactions: " ++ toString context.contact.interactionCount
        ++ "\n"
      ++ (match context.agreements with
          | [] => ""
          | ags => "\n## Active Agreements:\n"
              ++ String.join (ags.map (fun a =>
                  "- " ++ a.type ++ ": " ++ a.description ++ "\n")))
      ++ "\n")

/-- The parameter record of `callAIModel`. -/
structure AIModelParams where
  systemPrompt : String
  messages : List ChatMessage
  userMessage : String
  temperature : Int
  maxTokens : Int
  model : String

/-- The result of `callAIModel`. -/
structure AIResponse where
  content : String
  tokensUsed : Int

/-- `callAIModel(params)` from `src/unnamed/part_002`: the current
implementation is a placeholder that echoes the user message and reports
150 tokens used. -/
def callAIModel (params : AIModelParams) : AIResponse :=
  { content := "This is a placeholder AI response. The actual AI integration will be implemented in production. User message was: \""
      ++ params.userMessage ++ "\"",
    tokensUsed := 150 }

/-- Modelled from the spec: `consume(orgId, amount, description, metadata)
-> success|failure` — the billing ledger call reports its outcome as data
(a failed deduction is recorded on the organization's reconciliation
ledger inside the billing module, never thrown back at the caller).
`consumeCredits` lives in `src/lib/billing/credits`, outside `src/`. -/
inductive ConsumeResult where
  | success : ConsumeResult
  | failure : ConsumeResult
deriving DecidableEq

/-- Modelled from the spec: the argument record `processMessage` passes to
`consumeCredits` (the `metadata` object is flattened into its two
fields). -/
structure ConsumeArgs where
  organizationId : String
  amount : Int
  description : String
  metadataConversationId : String
  metadataAgentId : String

/-- `getOrAssignAgent(conversationId, organizationId)` from
`src/unnamed/part_002`: the open assignment (null `unassignedAt`) with its
joined agent — a dangling `agentId` surfaces as the caller's
`"No agent available for conversation"` error — else pick the best agent
for the conversation's channel and contact and insert a fresh assignment
row (`freshAssignmentId` and `now` model the DB-generated id and
timestamp). -/
def getOrAssignAgent (db : DB) (conversationId organizationId : String)
    (freshAssignmentId : String) (now : Int) :
    Except String (AgentAssignment × Agent × DB) :=
  match db.assignments.find? (fun a => a.conversationId == conversationId
      && a.unassignedAt == none) with
  | some existing =>
    match db.agents.find? (fun ag => ag.id == existing.agentId) with
    | some ag => .ok (existing, ag, db)
    | none => .error "No agent available for conversation"
  | none =>
    match db.conversations.find? (fun c => c.id == conversationId) with
    | none => .error "Conversation not found"
    | some conversation =>
      match selectBestAgent db.agents organizationId
          { channel := conversation.channel,
            contactId := some conversation.contactId } with
      | none => .error "No suitable agent found"
      | some selected =>
        .ok ({ id := freshAssignmentId, conversationId := conversationId,
               agentId := selected.id, contactId := conversation.contactId,
               assignedAt := now, createdAt := now },
             selected,
             { db with assignments := db.assignments
                 ++ [{ id := freshAssignmentId, conversationId := conversationId,
                       agentId := selected.id,
                       contactId := conversation.contactId,
                       assignedAt := now, createdAt := now }] })

/-- Step 11 of `processMessage`: when the assignment has a (truthy) id,
bump its `messagesHandled` and `creditsUsed` (both columns are `NOT NULL
DEFAULT 0`, absorbing the source's `|| 0`). -/
def statsBump (db : DB) (assignment : AgentAssignment) (tokensUsed : Int) : DB :=
  if assignment.id == "" then db
  else { db with assignments := db.assignments.map (fun a =>
    if a.id == assignment.id then
      { a with messagesHandled := a.messagesHandled + 1,
               creditsUsed := a.creditsUsed + tokensUsed }
    else a) }

/-- The input record of `processMessage`. -/
structure ProcessMessageInput where
  conversationId : String
  messageContent : String
  organizationId : String
  contactId : String
  channel : String

/-- One entry of `ProcessMessageResult.actionsTriggered`. -/
structure ActionTriggerRecord where
  action : String
  status : String
  result : Option Json

/-- The result record of `processMessage`. -/
structure ProcessMessageResult where
  response : String
  actionsTriggered : List ActionTriggerRecord
  creditsUsed : Int
  model : String

/-- Steps 3–11 of `processMessage`, once the agent assignment and the
contact context are in hand: build the history and prompt, call the
model, decide and execute actions, persist the outbound assistant
message, call the billing ledger — the source ignores the returned
outcome (step 10) — and bump the assignment stats. -/
def processMessageWith (assignment : AgentAssignment) (agent : Agent)
    (db1 : DB) (input : ProcessMessageInput)
    (exec : EmberAction → Except String Json)
    (consume : ConsumeArgs → ConsumeResult)
    (freshMessageId : String) (now : Int) (context : ContactContext) :
    ProcessMessageResult × DB :=
  let aiResponse := callAIModel
    { systemPrompt := buildSystemPrompt agent context,
      messages := getConversationHistory db1.messages input.conversationId 20,
      userMessage := input.messageContent,
      temperature := jsOrInt agent.temperature 70,
      maxTokens := jsOrInt agent.maxTokens 1000,
      model := agent.model }
  let actions := decideActions aiResponse.content agent context
    input.conversationId
  let actionResults := actions.map exec
  let newMsg : ConversationMessage :=
    { id := freshMessageId, conversationId := input.conversationId,
      direction := "outbound", role := "assistant",
      content := aiResponse.content, contentType := "text",
      channel := input.channel, generatedByAi := true,
      model := some agent.model, creditsUsed := some aiResponse.tokensUsed,
      actionTriggered := if actions.length > 0 then some actions else none,
      createdAt := now }
  let _ledgerOutcome := consume
    { organizationId := input.organizationId,
      amount := aiResponse.tokensUsed,
      description := "AI response in conversation " ++ input.conversationId,
      metadataConversationId := input.conversationId,
      metadataAgentId := agent.id }
  ({ response := aiResponse.content,
     actionsTriggered := (actions.zip actionResults).map (fun p =>
       { action := if p.1.type == "" then "unknown" else p.1.type,
         status := match p.2 with | .ok _ => "success" | .error _ => "failed",
         result := match p.2 with | .ok v => some v | .error _ => none }),
     creditsUsed := aiResponse.tokensUsed,
     model := agent.model },
   statsBump { db1 with messages := db1.messages ++ [newMsg] } assignment
     aiResponse.tokensUsed)

/-- `processMessage(input)` from `src/unnamed/part_002`: steps 1–2 resolve
the agent assignment and the contact context (each failure propagates as
the thrown error), then `processMessageWith` runs the rest of the
pipeline. -/
def processMessage (db : DB) (input : ProcessMessageInput)
    (exec : EmberAction → Except String Json)
    (consume : ConsumeArgs → ConsumeResult)
    (freshAssignmentId freshMessageId : String) (now : Int) :
    Except String (ProcessMessageResult × DB) :=
  match getOrAssignAgent db input.conversationId input.organizationId
      freshAssignmentId now with
  | .error e => .error e
  | .ok (assignment, agent, db1) =>
    match buildContext db1 input.contactId input.conversationId with
    | .error e => .error e
    | .ok context =>
      .ok (processMessageWith assignment agent db1 input exec consume
        freshMessageId now context)

theorem statsBump_messages (db : DB) (assignment : AgentAssignment)
    (tokensUsed : Int) :
    (statsBump db assignment tokensUsed).messages = db.messages := by
  unfold statsBump
  split
  · rfl
  · rfl

theorem processMessage_eq (db db1 : DB) (input : ProcessMessageInput)
    (exec : EmberAction → Except String Json)
    (consume : ConsumeArgs → ConsumeResult)
    (freshAssignmentId freshMessageId : String) (now : Int)
    (assignment : AgentAssignment) (agent : Agent) (context : ContactContext)
    (hassign : getOrAssignAgent db input.conversationId input.organizationId
        freshAssignmentId now = .ok (assignment, agent, db1))
    (hctx : buildContext db1 input.contactId input.conversationId
        = .ok context) :
    processMessage db input exec consume freshAssignmentId freshMessageId now
      = .ok (processMessageWith assignment agent db1 input exec consume
          freshMessageId now context) := by
  unfold processMessage
  rw [hassign]
  show (match buildContext db1 input.contactId input.conversationId with
    | .error e => (.error e : Except String (ProcessMessageResult × DB))
    | .ok context => .ok (processMessageWith assignment agent db1 input exec
        consume freshMessageId now context)) = _
  rw [hctx]

/-- C3: once the agent assignment and the contact context resolve, the
pipeline completes and returns the generated response for EVERY billing
outcome function `consume` — in particular one that always reports
failure — with the outbound assistant message already persisted in the
store; the run is indistinguishable from one whose deduction always
succeeds, so a ledger failure is never propagated as an error discarding
the generated response. -/
theorem processMessage_ledger_failure_tolerant (db db1 : DB)
    (input : ProcessMessageInput)
    (exec : EmberAction → Except String Json)
    (consume : ConsumeArgs → ConsumeResult)
    (freshAssignmentId freshMessageId : String) (now : Int)
    (assignment : AgentAssignment) (agent : Agent) (context : ContactContext)
    (hassign : getOrAssignAgent db input.conversationId input.organizationId
        freshAssignmentId now = .ok (assignment, agent, db1))
    (hctx : buildContext db1 input.contactId input.conversationId
        = .ok context) :
    ∃ result db',
      processMessage db input exec consume freshAssignmentId freshMessageId now
        = .ok (result, db')
      ∧ processMessage db input exec consume freshAssignmentId freshMessageId
          now
        = processMessage db input exec (fun x => ConsumeResult.success)
            freshAssignmentId freshMessageId now
      ∧ result.response
        = "This is a placeholder AI response. The actual AI integration will be implemented in production. User message was: \""
          ++ input.messageContent ++ "\""
      ∧ ∃ m ∈ db'.messages, m.direction = "outbound" ∧ m.role = "assistant"
          ∧ m.generatedByAi = true ∧ m.content = result.response := by
  have heq := processMessage_eq db db1 input exec consume freshAssignmentId
    freshMessageId now assignment agent context hassign hctx
  have heq' := processMessage_eq db db1 input exec
    (fun x => ConsumeResult.success) freshAssignmentId
    freshMessageId now assignment agent context hassign hctx
  refine ⟨_, _, heq, ?_, rfl, ?_⟩
  · rw [heq, heq']
    rfl
  · show ∃ m ∈ (statsBump _ _ _).messages, _
    rw [statsBump_messages]
    exact ⟨_, List.mem_append_right _ (List.mem_singleton_self _),
      rfl, rfl, rfl, rfl⟩

/-- A concrete contact for the C3 witness store. -/
def contactC3 : Contact :=
  { id := "ct3", organizationId := "org3", firstName := "Ana", lastName := "Luz" }

/-- A concrete agent for the C3 witness store. -/
def agentC3 : Agent :=
  { id := "ag3", organizationId := "org3", name := "A3", type := "sales",
    systemPrompt := "You help." }

/-- An open assignment binding conversation `cv3` to `agentC3`. -/
def assignmentC3 : AgentAssignment :=
  { id := "as3", conversationId := "cv3", agentId := "ag3", contactId := "ct3" }

/-- The C3 witness store. -/
def dbC3 : DB :=
  { contacts := [contactC3], agents := [agentC3], assignments := [assignmentC3] }

/-- The C3 witness input. -/
def inputC3 : ProcessMessageInput :=
  { conversationId := "cv3", messageContent := "Hola",
    organizationId := "org3", contactId := "ct3", channel := "whatsapp" }

/-- The context `buildContext` produces on the C3 witness store. -/
def contextC3 : ContactContext :=
  match buildContext dbC3 "ct3" "cv3" with
  | .ok c => c
  | .error _ => { contact := { id := "", firstName := "", lastName := "" } }

/-- Witness for C3: the theorem applied to the concrete store, with an
executor that always fails and a billing ledger that always reports
failure. -/
theorem processMessage_ledger_failure_tolerant_witness :
    ∃ result db',
      processMessage dbC3 inputC3 (fun a => Except.error "down")
          (fun a => ConsumeResult.failure) "asF" "msgF" 0
        = .ok (result, db')
      ∧ processMessage dbC3 inputC3 (fun a => Except.error "down")
          (fun a => ConsumeResult.failure) "asF" "msgF" 0
        = processMessage dbC3 inputC3 (fun a => Except.error "down")
            (fun x => ConsumeResult.success) "asF" "msgF" 0
      ∧ result.response
        = "This is a placeholder AI response. The actual AI integration will be implemented in production. User message was: \""
          ++ inputC3.messageContent ++ "\""
      ∧ ∃ m ∈ db'.messages, m.direction = "outbound" ∧ m.role = "assistant"
          ∧ m.generatedByAi = true ∧ m.content = result.response :=
  processMessage_ledger_failure_tolerant dbC3 dbC3 inputC3
    (fun a => Except.error "down") (fun a => ConsumeResult.failure)
    "asF" "msgF" 0 assignmentC3 agentC3 contextC3 rfl rfl
